import Mathlib

/-!
Verification of the unified product catalog backend
(`backend/src/models/ProductType.js`, `backend/src/models/UnifiedProduct.js`,
`backend/src/models/UnifiedVariant.js`,
`backend/src/controllers/productTypeController.js`,
`backend/src/controllers/unifiedProductController.js`).

The JavaScript code is shallowly embedded: JS values that flow through the
specification validator are modelled by the inductive `JsValue`; mongoose
documents become Lean structures; the document store plus the mongoose
session/transaction becomes an explicit `DbState` threaded through the
controller functions, with `abortTransaction` modelled by returning the
initial state on error.  JS numbers are modelled by `Int` (the code paths
under study never produce fractional values or `NaN`: payload numbers are
coerced with `Number(x) || 0`).  Strings are Lean `String`s; the Unicode
pipeline of the slug helper is modelled per UTF-8 character, with
`normalize("NFD")` treated as the identity on characters (accurate for all
strings that contain no precomposed accented letters; the combining-mark
stripper that follows it is modelled exactly).
-/

/-- An element of a JS array value: the validator only ever compares array
elements against the string `options`, so elements are modelled as strings
or numbers (nested arrays are outside the model). -/
inductive JsScalar where
  | sStr (s : String)
  | sNum (n : Int)
deriving DecidableEq, Repr

/-- A JavaScript runtime value as it can appear in a `specifications` map:
a string, a number, or an array. -/
inductive JsValue where
  | vStr (s : String)
  | vNum (n : Int)
  | vArr (elems : List JsScalar)
deriving DecidableEq, Repr

/-- JS truthiness of a `JsValue`: `""` and `0` are falsy, arrays are truthy. -/
def JsValue.truthy : JsValue → Bool
  | .vStr s => !(s == "")
  | .vNum n => !(n == 0)
  | .vArr _ => true

/-- The digits `0`-`9`. -/
def isDigitChar (c : Char) : Bool := 48 ≤ c.toNat && c.toNat ≤ 57

/-- Optional `+`/`-` sign followed by at least one digit
(the exponent part of a JS numeric literal). -/
def signedDigits (l : List Char) : Bool :=
  let l := match l with
    | '+' :: r => r
    | '-' :: r => r
    | r => r
  !l.isEmpty && l.all isDigitChar

/-- An optional exponent suffix `e`/`E` followed by signed digits. -/
def expPart : List Char → Bool
  | [] => true
  | 'e' :: r => signedDigits r
  | 'E' :: r => signedDigits r
  | _ => false

/-- Decimal numeric literal: optional sign, then `digits [. digits] [exp]`
or `. digits [exp]`. -/
def decLiteral (l : List Char) : Bool :=
  let l := match l with
    | '+' :: r => r
    | '-' :: r => r
    | r => r
  let intPart := l.takeWhile isDigitChar
  let rest := l.dropWhile isDigitChar
  if intPart.isEmpty then
    match rest with
    | '.' :: r => !(r.takeWhile isDigitChar).isEmpty && expPart (r.dropWhile isDigitChar)
    | _ => false
  else
    match rest with
    | [] => true
    | '.' :: r => expPart (r.dropWhile isDigitChar)
    | _ => expPart rest

/-- JS `\s`: ASCII whitespace, NBSP, and the Unicode space separators. -/
def isJsSpace (c : Char) : Bool :=
  c.toNat == 32 || (9 ≤ c.toNat && c.toNat ≤ 13) || c.toNat == 160 ||
  c.toNat == 5760 || (8192 ≤ c.toNat && c.toNat ≤ 8202) || c.toNat == 8232 ||
  c.toNat == 8233 || c.toNat == 8239 || c.toNat == 8287 || c.toNat == 12288 ||
  c.toNat == 65279

/-- `String.prototype.trim`: strip leading and trailing JS whitespace. -/
def jsTrim (s : String) : String :=
  String.mk (((s.data.dropWhile isJsSpace).reverse.dropWhile isJsSpace).reverse)

/-- Whether `Number(s)` yields a non-`NaN` number for a string `s`:
JS trims whitespace, maps the empty string to `0`, and otherwise requires a
numeric literal (modelled here by the decimal grammar). -/
def jsNumberParses (s : String) : Bool :=
  let l := (jsTrim s).data
  l.isEmpty || decLiteral l

/-- Whether `isNaN(Number(v))` is `true` for a defined value `v`.
`Number` of an array first converts it to its joined string form, so the
empty array gives `0`, a one-element array converts its element, and any
longer array gives `NaN` (its string contains a comma). -/
def JsValue.numberIsNaN : JsValue → Bool
  | .vNum _ => false
  | .vStr s => !(jsNumberParses s)
  | .vArr [] => false
  | .vArr [.sNum _] => false
  | .vArr [.sStr s] => !(jsNumberParses s)
  | .vArr _ => true

/-- `specifications` objects are open string-keyed maps. -/
abbrev SpecMap := List (String × JsValue)

/-- `specifications[k]`: first binding of key `k`, `none` for JS `undefined`. -/
def specGet (m : SpecMap) (k : String) : Option JsValue :=
  (m.find? (fun p => p.1 == k)).map (fun p => p.2)

/-- `specifications?.[k]` where the whole map may itself be `undefined`. -/
def lookupSpec (m : Option SpecMap) (k : String) : Option JsValue :=
  match m with
  | none => none
  | some mm => specGet mm k

/-- Truthiness of `specifications[k]` (`undefined` is falsy). -/
def specIsTruthy (m : Option SpecMap) (k : String) : Bool :=
  match lookupSpec m k with
  | none => false
  | some v => v.truthy

/-- `field.options.includes(value)` where `options` is an array of strings:
true exactly when `value` is the string of one of the options. -/
def optionsInclude (options : List String) (v : Option JsValue) : Bool :=
  match v with
  | some (.vStr s) => options.contains s
  | _ => false

/-- `field.options.includes(v)` for an element `v` of an array value. -/
def optionsIncludeScalar (options : List String) (v : JsScalar) : Bool :=
  match v with
  | .sStr s => options.contains s
  | .sNum _ => false

/-- `String(v)` for an array element, used when the validator joins the
invalid elements into an error message. -/
def JsScalar.jsString : JsScalar → String
  | .sStr s => s
  | .sNum n => toString n

/-- The `type` enum of a specification field descriptor
(`specificationFieldSchema` in `ProductType.js`). -/
inductive FieldType where
  | text | number | select | multiselect | textarea
deriving DecidableEq, Repr

/-- One specification field descriptor of a ProductType
(`specificationFieldSchema`).  `type` is spelled `ftype` (`type` is
reserved in Lean); `placeholder`/`helpText`/`order` carry no behavior in
the validators and are omitted. -/
structure SpecField where
  name : String
  label : String
  ftype : FieldType
  options : List String
  required : Bool
deriving DecidableEq, Repr

/-- A ProductType document (`productTypeSchema`), restricted to the fields
the verified operations read; `id` stands for the Mongo `_id`. -/
structure ProductType where
  id : Nat
  name : String
  slug : String
  specificationFields : List SpecField
deriving DecidableEq, Repr

/-- `getRequiredFields` of `ProductType.js`. -/
def ProductType.getRequiredFields (t : ProductType) : List SpecField :=
  t.specificationFields.filter (fun f => f.required)

/-- Result shape of the model method `validateSpecifications`. -/
structure ValidationResult where
  isValid : Bool
  errors : List String
deriving DecidableEq, Repr

/-- The per-field error entry the model validator pushes for a present
value of the given field, `none` when the value passes.  Mirrors the
`switch (field.type)` in `ProductType.js` `validateSpecifications`. -/
def modelFieldError (field : SpecField) (value : JsValue) : Option String :=
  match field.ftype with
  | .number =>
      if value.numberIsNaN then some (field.label ++ " phải là số") else none
  | .select =>
      if !(optionsInclude field.options (some value)) then
        some (field.label ++ " phải là một trong: " ++ String.intercalate ", " field.options)
      else none
  | .multiselect =>
      match value with
      | .vArr xs =>
          let invalid := xs.filter (fun v => !(optionsIncludeScalar field.options v))
          if !invalid.isEmpty then
            some (field.label ++ " chứa giá trị không hợp lệ: "
                  ++ String.intercalate ", " (invalid.map JsScalar.jsString))
          else none
      | _ => none
  | _ => none

/-- `productTypeSchema.methods.validateSpecifications` of `ProductType.js`:
collects one error per missing required field, then one error per present
field whose value violates its type constraint, and reports
`isValid: errors.length === 0`. -/
def ProductType.validateSpecifications (t : ProductType) (specifications : Option SpecMap) :
    ValidationResult :=
  let requiredErrors := t.getRequiredFields.filterMap (fun field =>
    if specIsTruthy specifications field.name then none
    else some (field.label ++ " là bắt buộc"))
  let typeErrors := t.specificationFields.filterMap (fun field =>
    match lookupSpec specifications field.name with
    | none => none
    | some value =>
        if !value.truthy then none
        else modelFieldError field value)
  let errors := requiredErrors ++ typeErrors
  { isValid := errors.length == 0, errors := errors }

/-- One iteration step of the `for (const field of ...)` type-check loop in
the controller helper `validateSpecifications`
(`unifiedProductController.js`): throws (returns `.error`) at the first
violated field and otherwise continues with the rest of the fields.
Reading `specifications[field.name]` when the map itself is `undefined`
raises a TypeError in JS, which the surrounding `try` converts into an
aborted operation; that is modelled by the first branch. -/
def ctrlTypeCheckFields (specifications : Option SpecMap) :
    List SpecField → Except String Unit
  | [] => .ok ()
  | field :: rest =>
    match specifications with
    | none => .error "TypeError: Cannot read properties of undefined"
    | some mm =>
      let value := specGet mm field.name
      let valueTruthy := match value with
        | none => false
        | some v => v.truthy
      if !valueTruthy && !field.required then ctrlTypeCheckFields specifications rest
      else
        match field.ftype with
        | .select =>
            if !(optionsInclude field.options value) then
              .error (field.name ++ " phải là một trong: "
                      ++ String.intercalate ", " field.options)
            else ctrlTypeCheckFields specifications rest
        | .multiselect =>
            match value with
            | some (.vArr xs) =>
                let invalid := xs.filter (fun v => !(optionsIncludeScalar field.options v))
                if !invalid.isEmpty then
                  .error (field.name ++ " chứa giá trị không hợp lệ: "
                          ++ String.intercalate ", " (invalid.map JsScalar.jsString))
                else ctrlTypeCheckFields specifications rest
            | _ => ctrlTypeCheckFields specifications rest
        | .number =>
            if (match value with
                | none => true
                | some v => v.numberIsNaN) then
              .error (field.name ++ " phải là số")
            else ctrlTypeCheckFields specifications rest
        | _ => ctrlTypeCheckFields specifications rest

/-- The controller helper `validateSpecifications(productTypeId, specifications)`
of `unifiedProductController.js`: loads the ProductType, throws one combined
message listing all missing required fields, then runs the per-field type
check loop which throws at the first violation. -/
def ctrlValidateSpecifications (productTypes : List ProductType) (productTypeId : Nat)
    (specifications : Option SpecMap) : Except String Unit :=
  match productTypes.find? (fun t => t.id == productTypeId) with
  | none => .error "ProductType không tồn tại"
  | some productType =>
    let requiredFields :=
      (productType.specificationFields.filter (fun f => f.required)).map (fun f => f.name)
    let missingFields := requiredFields.filter (fun f => !(specIsTruthy specifications f))
    if !missingFields.isEmpty then
      .error ("Thiếu các trường bắt buộc: " ++ String.intercalate ", " missingFields)
    else
      ctrlTypeCheckFields specifications productType.specificationFields

/-- JS `\w` (ASCII letters, digits, underscore). -/
def isJsWordChar (c : Char) : Bool :=
  (97 ≤ c.toNat && c.toNat ≤ 122) || (65 ≤ c.toNat && c.toNat ≤ 90) ||
  (48 ≤ c.toNat && c.toNat ≤ 57) || c.toNat == 95

/-- The combining diacritical marks `̀`-`ͯ` stripped after NFD. -/
def isCombiningMark (c : Char) : Bool := 768 ≤ c.toNat && c.toNat ≤ 879

/-- `String.prototype.toLowerCase` restricted to its ASCII action
(non-ASCII letters play no further role: any non-ASCII character is later
removed by the `[^\w\-]+` filter). -/
def jsToLower (c : Char) : Char :=
  if 65 ≤ c.toNat && c.toNat ≤ 90 then Char.ofNat (c.toNat + 32) else c

/-- `replace(/\s+/g, "-")`: each maximal run of whitespace becomes a single
hyphen.  The `Bool` argument records whether the previous character was
whitespace (i.e. whether we are inside a run). -/
def collapseSpaceRuns : List Char → Bool → List Char
  | [], _ => []
  | c :: rest, prevSpace =>
    if isJsSpace c then
      if prevSpace then collapseSpaceRuns rest true
      else '-' :: collapseSpaceRuns rest true
    else c :: collapseSpaceRuns rest false

/-- `replace(/\-\-+/g, "-")`: every maximal run of two or more hyphens
becomes a single hyphen (a lone hyphen is left alone, which coincides with
collapsing every hyphen run to one).  The `Bool` argument records whether
the previous character was a hyphen. -/
def squeezeHyphens : List Char → Bool → List Char
  | [], _ => []
  | c :: rest, prevHyphen =>
    if c == '-' then
      if prevHyphen then squeezeHyphens rest true
      else '-' :: squeezeHyphens rest true
    else c :: squeezeHyphens rest false

/-- The chained `replace` pipeline of the `createSlug` helper
(`unifiedProductController.js`), character-by-character on the string's
characters: lower-case, strip combining marks (the effect of
`normalize("NFD")` followed by `replace(/[̀-ͯ]/g, "")`),
whitespace runs to hyphens, drop everything outside `[\w\-]`, squeeze
hyphen runs, trim leading and trailing hyphens. -/
def slugPipeline (l : List Char) : List Char :=
  let lowered := l.map jsToLower
  let decomposed := lowered.filter (fun c => !(isCombiningMark c))
  let hyphenated := collapseSpaceRuns decomposed false
  let cleaned := hyphenated.filter (fun c => isJsWordChar c || c == '-')
  let squeezed := squeezeHyphens cleaned false
  let trimmedFront := squeezed.dropWhile (fun c => c == '-')
  (trimmedFront.reverse.dropWhile (fun c => c == '-')).reverse

/-- The `createSlug` helper of `unifiedProductController.js`. -/
def createSlug (s : String) : String := String.mk (slugPipeline s.data)

/-- A persisted `UnifiedVariant` document (`UnifiedVariant.js`), restricted
to the fields the verified operations read or write; `id` stands for the
Mongo `_id`.  The `legacyFields` migration map carries no behavior here. -/
structure UnifiedVariant where
  id : Nat
  productId : Nat
  color : String
  versionName : String
  originalPrice : Int
  price : Int
  stock : Int
  images : List String
  sku : String
  slug : String
  salesCount : Int
  viewCount : Int
deriving DecidableEq, Repr

/-- A persisted `UnifiedProduct` document (`UnifiedProduct.js`); `variants`
is the list of owned variant `_id`s, `createdBy` a user id. -/
structure UnifiedProduct where
  id : Nat
  name : String
  model : String
  slug : String
  baseSlug : String
  description : String
  productTypeId : Nat
  specifications : SpecMap
  condition : String
  brand : String
  status : String
  installmentBadge : String
  featuredImages : List String
  videoUrl : String
  variants : List Nat
  createdBy : Nat
deriving DecidableEq, Repr

/-- The document store visible to one controller invocation, together with
the id/SKU allocation counters.  The mongoose session is modelled by
threading this state: writes inside a transaction update the threaded
state, `abortTransaction` returns the state from before the operation. -/
structure DbState where
  productTypes : List ProductType
  products : List UnifiedProduct
  variantDocs : List UnifiedVariant
  nextProductId : Nat
  nextVariantId : Nat
  skuCounter : Nat
deriving DecidableEq, Repr

/-- One decimal digit as a character. -/
def digitChar (d : Nat) : Char := Char.ofNat (48 + d)

/-- Big-endian decimal digits of `n`, with explicit fuel so that the
recursion is structural (the fuel is always taken at least `n`). -/
def natDigitsAux : Nat → Nat → List Char
  | 0, _ => []
  | fuel + 1, n =>
    if n = 0 then [] else natDigitsAux fuel (n / 10) ++ [digitChar (n % 10)]

/-- Big-endian decimal digits of `n` (`"0"` for zero). -/
def natDigits (n : Nat) : List Char :=
  if n = 0 then ['0'] else natDigitsAux n n

/-- Modelled from the spec: `backend/src/lib/generateSKU.js` is not among
the provided sources; the spec describes the SKU allocator as
`nextSku() -> string`, a shared counter or uniqueness index "guaranteed
unique across concurrent callers".  Modelled as a monotonic counter
rendered in decimal into the SKU string. -/
def mkSku (n : Nat) : String := "SKU-" ++ String.mk (natDigits n)

/-- Modelled from the spec: `getNextSku()` draws the next SKU from the
shared counter. -/
def getNextSku (counter : Nat) : String × Nat := (mkSku counter, counter + 1)

/-- `x?.trim() || d` / `x || d` for optional string payload fields. -/
def jsOrDefault (o : Option String) (d : String) : String :=
  match o with
  | some s => if s == "" then d else s
  | none => d

/-- The mongoose `lowercase: true` setter on `slug`/`baseSlug`. -/
def jsLowerStr (s : String) : String := String.mk (s.data.map jsToLower)

/-- Rejections performed by `UnifiedVariant.save()`: the
`pre("save")` hook rejecting `price > originalPrice`, then the schema
validators (`min: 0` on the numeric fields, `required` on the non-empty
strings). -/
def saveVariantChecks (v : UnifiedVariant) : Except String Unit :=
  if v.price > v.originalPrice then .error "Giá bán không được lớn hơn giá gốc"
  else if v.originalPrice < 0 || v.price < 0 || v.stock < 0 ||
          v.salesCount < 0 || v.viewCount < 0 then
    .error "UnifiedVariant validation failed: min"
  else if v.color == "" || v.versionName == "" || v.sku == "" then
    .error "UnifiedVariant validation failed: required"
  else .ok ()

/-- `variantDoc.save({ session })` for a freshly constructed document:
run the save rejections, enforce the unique index on `sku`, then append
the document to the (session-local) store. -/
def insertVariant (st : DbState) (v : UnifiedVariant) : Except String DbState :=
  match saveVariantChecks v with
  | .error e => .error e
  | .ok _ =>
    if st.variantDocs.any (fun w => w.sku == v.sku) then
      .error ("Trường sku đã tồn tại: " ++ v.sku)
    else .ok { st with variantDocs := st.variantDocs ++ [v] }

/-- The `pre("save")` hook of `UnifiedProduct.js`: derive `baseSlug` from
`model` when absent, and default `slug` to `baseSlug`. -/
def applyProductPreSave (p : UnifiedProduct) : UnifiedProduct :=
  let p1 := if p.baseSlug == "" && !(p.model == "") then
      { p with baseSlug := createSlug p.model }
    else p
  if p1.slug == "" then { p1 with slug := p1.baseSlug } else p1

/-- Rejections performed by `UnifiedProduct.save()`: schema `required`
validators and the unique (sparse) index on `slug`, excluding the
document itself. -/
def productSaveChecks (st : DbState) (p : UnifiedProduct) : Except String Unit :=
  if p.name == "" || p.model == "" || p.baseSlug == "" then
    .error "UnifiedProduct validation failed: required"
  else if st.products.any (fun q => !(q.id == p.id) && q.slug == p.slug) then
    .error ("Trường slug đã tồn tại: " ++ p.slug)
  else .ok ()

/-- `product.save({ session })` for a freshly constructed document. -/
def insertProduct (st : DbState) (p : UnifiedProduct) : Except String DbState :=
  let p := applyProductPreSave p
  match productSaveChecks st p with
  | .error e => .error e
  | .ok _ =>
    .ok { st with products := st.products ++ [p], nextProductId := st.nextProductId + 1 }

/-- `product.save({ session })` for an already persisted document:
replace the stored document with the updated one. -/
def updateProductInState (st : DbState) (p : UnifiedProduct) : Except String DbState :=
  let p := applyProductPreSave p
  match productSaveChecks st p with
  | .error e => .error e
  | .ok _ =>
    .ok { st with products := st.products.map (fun q => if q.id == p.id then p else q) }

/-- One option of one variant group in a create/update payload; numeric
fields are optional because the controller coerces them with
`Number(x) || 0`. -/
structure VariantOption where
  versionName : String
  originalPrice : Option Int
  price : Option Int
  stock : Option Int
deriving DecidableEq, Repr

/-- One color group of a create/update payload. -/
structure VariantGroup where
  color : String
  images : List String
  options : List VariantOption
deriving DecidableEq, Repr

/-- `new UnifiedVariant({...})` as constructed inside the create/update
variant loops: trims color/versionName, coerces the numeric fields,
keeps only non-blank images, takes the SKU drawn at counter position
`skuIdx` and the composite slug `slugBase + "-" + createSlug(versionName)`;
`vid` is the Mongo-assigned `_id`. -/
def newUnifiedVariant (vid skuIdx : Nat) (productId : Nat) (color : String)
    (images : List String) (slugBase : String) (opt : VariantOption) : UnifiedVariant :=
  { id := vid
    productId := productId
    color := jsTrim color
    versionName := jsTrim opt.versionName
    originalPrice := opt.originalPrice.getD 0
    price := opt.price.getD 0
    stock := opt.stock.getD 0
    images := images.filter (fun img => !(jsTrim img == ""))
    sku := mkSku skuIdx
    slug := slugBase ++ "-" ++ createSlug (jsTrim opt.versionName)
    salesCount := 0
    viewCount := 0 }

/-- The inner `for (const opt of options)` loop of the create/update
variant expansion: skip options with a blank `versionName`, otherwise
allocate a SKU, construct the variant and save it; returns the state and
the created `_id`s in input order. -/
def insertOptionsLoop (productId : Nat) (color : String) (images : List String)
    (slugBase : String) : DbState → List VariantOption → Except String (DbState × List Nat)
  | st, [] => .ok (st, [])
  | st, opt :: rest =>
    if jsTrim opt.versionName == "" then
      insertOptionsLoop productId color images slugBase st rest
    else
      let v := newUnifiedVariant st.nextVariantId st.skuCounter productId color images slugBase opt
      let stBumped := { st with skuCounter := st.skuCounter + 1,
                                nextVariantId := st.nextVariantId + 1 }
      match insertVariant stBumped v with
      | .error e => .error e
      | .ok st1 =>
        match insertOptionsLoop productId color images slugBase st1 rest with
        | .error e => .error e
        | .ok (st2, ids) => .ok (st2, v.id :: ids)

/-- The outer `for (const group of variantGroups)` loop: skip groups whose
`color` is blank or whose `options` list is empty, expand the rest. -/
def insertGroupsLoop (productId : Nat) (slugBase : String) :
    DbState → List VariantGroup → Except String (DbState × List Nat)
  | st, [] => .ok (st, [])
  | st, g :: rest =>
    if jsTrim g.color == "" then insertGroupsLoop productId slugBase st rest
    else if g.options.isEmpty then insertGroupsLoop productId slugBase st rest
    else
      match insertOptionsLoop productId g.color g.images slugBase st g.options with
      | .error e => .error e
      | .ok (st1, ids1) =>
        match insertGroupsLoop productId slugBase st1 rest with
        | .error e => .error e
        | .ok (st2, ids2) => .ok (st2, ids1 ++ ids2)

/-- A `POST /products` payload as destructured by `create` in
`unifiedProductController.js`; `variantGroups` is
`createVariants || variants || []`, `slug` the optional frontend slug,
`Option` fields are `undefined` when absent. -/
structure CreateRequest where
  name : String
  model : String
  slug : Option String
  productTypeId : Option Nat
  specifications : Option SpecMap
  description : Option String
  condition : Option String
  brand : Option String
  status : Option String
  installmentBadge : Option String
  createdBy : Option Nat
  featuredImages : Option (List String)
  videoUrl : Option String
  variantGroups : List VariantGroup
deriving DecidableEq, Repr

/-- The body of the `create` transaction in `unifiedProductController.js`:
required-field checks, specification validation, slug derivation and
uniqueness check, product save, variant expansion, and the final product
save recording the created variant ids.  Any `.error` corresponds to a
thrown exception that the caller answers by aborting the transaction. -/
def createProductTx (st : DbState) (req : CreateRequest) : Except String DbState :=
  if jsTrim req.name == "" then .error "Tên sản phẩm là bắt buộc"
  else if jsTrim req.model == "" then .error "Model là bắt buộc"
  else
    match req.productTypeId with
    | none => .error "ProductType là bắt buộc"
    | some productTypeId =>
      match req.createdBy with
      | none => .error "createdBy là bắt buộc"
      | some createdBy =>
        match ctrlValidateSpecifications st.productTypes productTypeId req.specifications with
        | .error e => .error e
        | .ok _ =>
          let finalSlug :=
            match req.slug with
            | some s => if !(jsTrim s == "") then jsTrim s else createSlug (jsTrim req.model)
            | none => createSlug (jsTrim req.model)
          if finalSlug == "" then .error "Không thể tạo slug từ model"
          else if st.products.any (fun p => p.slug == finalSlug || p.baseSlug == finalSlug) then
            .error ("Slug đã tồn tại: " ++ finalSlug)
          else
            let product : UnifiedProduct :=
              { id := st.nextProductId
                name := jsTrim req.name
                model := jsTrim req.model
                slug := jsLowerStr finalSlug
                baseSlug := jsLowerStr finalSlug
                description := jsTrim (req.description.getD "")
                productTypeId := productTypeId
                specifications := req.specifications.getD []
                condition := jsOrDefault req.condition "NEW"
                brand := jsOrDefault req.brand "Apple"
                status := jsOrDefault req.status "AVAILABLE"
                installmentBadge := jsOrDefault req.installmentBadge "NONE"
                createdBy := createdBy
                featuredImages := req.featuredImages.getD []
                videoUrl := jsTrim (req.videoUrl.getD "")
                variants := [] }
            match insertProduct st product with
            | .error e => .error e
            | .ok st1 =>
              if req.variantGroups.isEmpty then .ok st1
              else
                match insertGroupsLoop product.id finalSlug st1 req.variantGroups with
                | .error e => .error e
                | .ok (st2, ids) =>
                  updateProductInState st2 { product with variants := ids }

/-- `create` of `unifiedProductController.js`: run the transaction body;
on success commit the written state, on any thrown error abort the
transaction, leaving the store as it was. -/
def createProduct (st : DbState) (req : CreateRequest) : Except String Unit × DbState :=
  match createProductTx st req with
  | .ok st' => (.ok (), st')
  | .error e => (.error e, st)

/-- A `PUT /products/:id` payload as destructured by `update`;
`variantGroups` is `createVariants || variants || []` (empty when the
payload carries no variant groups). -/
structure UpdateRequest where
  name : Option String
  description : Option String
  condition : Option String
  status : Option String
  installmentBadge : Option String
  featuredImages : Option (List String)
  videoUrl : Option String
  model : Option String
  slug : Option String
  specifications : Option SpecMap
  variantGroups : List VariantGroup
deriving DecidableEq, Repr

/-- `if (data.name) product.name = data.name.trim()`. -/
def updName (req : UpdateRequest) (product : UnifiedProduct) : UnifiedProduct :=
  match req.name with
  | some n => if !(n == "") then { product with name := jsTrim n } else product
  | none => product

/-- `if (data.description !== undefined) product.description = data.description?.trim() || ""`. -/
def updDescription (req : UpdateRequest) (product : UnifiedProduct) : UnifiedProduct :=
  match req.description with
  | some d => { product with description := jsTrim d }
  | none => product

/-- `if (data.condition) product.condition = data.condition`. -/
def updCondition (req : UpdateRequest) (product : UnifiedProduct) : UnifiedProduct :=
  match req.condition with
  | some c => if !(c == "") then { product with condition := c } else product
  | none => product

/-- `if (data.status) product.status = data.status`. -/
def updStatus (req : UpdateRequest) (product : UnifiedProduct) : UnifiedProduct :=
  match req.status with
  | some s0 => if !(s0 == "") then { product with status := s0 } else product
  | none => product

/-- `if (data.installmentBadge) product.installmentBadge = data.installmentBadge`. -/
def updBadge (req : UpdateRequest) (product : UnifiedProduct) : UnifiedProduct :=
  match req.installmentBadge with
  | some b => if !(b == "") then { product with installmentBadge := b } else product
  | none => product

/-- `if (data.featuredImages !== undefined) product.featuredImages = data.featuredImages`. -/
def updImages (req : UpdateRequest) (product : UnifiedProduct) : UnifiedProduct :=
  match req.featuredImages with
  | some imgs => { product with featuredImages := imgs }
  | none => product

/-- `if (data.videoUrl !== undefined) product.videoUrl = data.videoUrl?.trim() || ""`. -/
def updVideoUrl (req : UpdateRequest) (product : UnifiedProduct) : UnifiedProduct :=
  match req.videoUrl with
  | some u => { product with videoUrl := jsTrim u }
  | none => product

/-- Step 1 of `update`: apply the provided scalar field changes, one JS
statement per step (truthiness-guarded for
`name`/`condition`/`status`/`installmentBadge`, `!== undefined`-guarded
for `description`/`featuredImages`/`videoUrl`). -/
def applyScalarUpdates (product : UnifiedProduct) (req : UpdateRequest) : UnifiedProduct :=
  updVideoUrl req (updImages req (updBadge req (updStatus req
    (updCondition req (updDescription req (updName req product))))))

/-- Step 2 of `update` — the slug the update will use:
recomputed from `model` when a different model is supplied, else the
trimmed frontend slug when non-blank, else the current
`product.slug || product.baseSlug`. -/
def newSlugFor (product : UnifiedProduct) (req : UpdateRequest) : String :=
  if (match req.model with
      | some m => !(m == "") && !(jsTrim m == product.model)
      | none => false) then
    createSlug (jsTrim (req.model.getD ""))
  else if !(jsTrim (req.slug.getD "") == "") then jsTrim (req.slug.getD "")
  else if !(product.slug == "") then product.slug else product.baseSlug

/-- `newSlug !== (product.slug || product.baseSlug)`. -/
def slugChangedFor (product : UnifiedProduct) (req : UpdateRequest) : Bool :=
  !(newSlugFor product req ==
    (if !(product.slug == "") then product.slug else product.baseSlug))

/-- The uniqueness re-check run when the slug changed: some other product
already holds the new slug as `slug` or `baseSlug`. -/
def slugConflict (st : DbState) (id : Nat) (product : UnifiedProduct)
    (req : UpdateRequest) : Bool :=
  slugChangedFor product req &&
    st.products.any (fun p => !(p.id == id) &&
      (p.slug == newSlugFor product req || p.baseSlug == newSlugFor product req))

/-- When the slug changed, store the (lowercased) new slug in both `slug`
and `baseSlug` and refresh `model` from the payload
(`data.model?.trim() || product.model`). -/
def applySlugUpdate (product : UnifiedProduct) (req : UpdateRequest) : UnifiedProduct :=
  if slugChangedFor product req then
    { product with
      slug := jsLowerStr (newSlugFor product req)
      baseSlug := jsLowerStr (newSlugFor product req)
      model := match req.model with
        | some m => if !(jsTrim m == "") then jsTrim m else product.model
        | none => product.model }
  else product

/-- Step 4 of `update`: re-validate the supplied specifications against
the product's (immutable) ProductType. -/
def specValidation (st : DbState) (product : UnifiedProduct) (req : UpdateRequest) :
    Except String Unit :=
  match req.specifications with
  | some specs =>
      ctrlValidateSpecifications st.productTypes product.productTypeId (some specs)
  | none => .ok ()

/-- Store the supplied specifications on the document. -/
def applySpecUpdate (product : UnifiedProduct) (req : UpdateRequest) : UnifiedProduct :=
  match req.specifications with
  | some specs => { product with specifications := specs }
  | none => product

/-- The body of the `update` transaction in `unifiedProductController.js`:
load the product, apply scalar changes, recompute and re-check the slug
when needed, re-validate supplied specifications, save, and when a
non-empty variant payload is supplied delete every owned variant and
re-run the expansion, saving the new reference list.  The successive
mutations of the loaded `product` document are written here as the
composition `applySpecUpdate (applySlugUpdate (applyScalarUpdates ...))`. -/
def updateProductTx (st : DbState) (id : Nat) (req : UpdateRequest) : Except String DbState :=
  match st.products.find? (fun p => p.id == id) with
  | none => .error "Không tìm thấy sản phẩm"
  | some product0 =>
    if slugConflict st id (applyScalarUpdates product0 req) req then
      .error ("Slug đã tồn tại: " ++ newSlugFor (applyScalarUpdates product0 req) req)
    else
      match specValidation st (applySlugUpdate (applyScalarUpdates product0 req) req) req with
      | .error e => .error e
      | .ok _ =>
        match updateProductInState st
            (applySpecUpdate (applySlugUpdate (applyScalarUpdates product0 req) req) req) with
        | .error e => .error e
        | .ok st1 =>
          if req.variantGroups.isEmpty then .ok st1
          else
            match insertGroupsLoop id
                (if !((applySpecUpdate (applySlugUpdate (applyScalarUpdates product0 req) req)
                        req).baseSlug == "") then
                  (applySpecUpdate (applySlugUpdate (applyScalarUpdates product0 req) req)
                     req).baseSlug
                 else
                  (applySpecUpdate (applySlugUpdate (applyScalarUpdates product0 req) req)
                     req).slug)
                { st1 with
                  variantDocs := st1.variantDocs.filter (fun w => !(w.productId == id)) }
                req.variantGroups with
            | .error e => .error e
            | .ok (st3, ids) =>
              updateProductInState st3
                { applySpecUpdate (applySlugUpdate (applyScalarUpdates product0 req) req) req
                    with variants := ids }

/-- `update` of `unifiedProductController.js` with its transaction
wrapper. -/
def updateProduct (st : DbState) (id : Nat) (req : UpdateRequest) :
    Except String Unit × DbState :=
  match updateProductTx st id req with
  | .ok st' => (.ok (), st')
  | .error e => (.error e, st)

/-- `deleteProductType` of `productTypeController.js`: refuse when the
type is unknown or at least one product still references it, otherwise
remove the type document.  The response is paired with the resulting
store, which is untouched on every failing branch. -/
def deleteProductTypeOp (st : DbState) (id : Nat) : Except String Unit × DbState :=
  match st.productTypes.find? (fun t => t.id == id) with
  | none => (.error "Không tìm thấy loại sản phẩm", st)
  | some _ =>
    let productCount := (st.products.filter (fun p => p.productTypeId == id)).length
    if productCount > 0 then
      (.error ("Không thể xóa. Có " ++ toString productCount
               ++ " sản phẩm đang sử dụng loại này"), st)
    else
      (.ok (), { st with productTypes := st.productTypes.eraseP (fun t => t.id == id) })

/-- `variant.save()` for an already persisted variant document: the saved
document survives unchanged exactly when the save rejections pass. -/
def saveVariantResult (v : UnifiedVariant) : Except String UnifiedVariant :=
  match saveVariantChecks v with
  | .error e => .error e
  | .ok _ => .ok v

/-- `unifiedVariantSchema.methods.incrementSales`. -/
def UnifiedVariant.incrementSales (v : UnifiedVariant) (quantity : Int) :
    Except String UnifiedVariant :=
  saveVariantResult { v with salesCount := v.salesCount + quantity }

/-- `unifiedVariantSchema.methods.decrementStock`: throw (leaving the
stored document unchanged) when the requested quantity exceeds the stock,
otherwise save with the decremented stock. -/
def UnifiedVariant.decrementStock (v : UnifiedVariant) (quantity : Int) :
    Except String UnifiedVariant :=
  if v.stock < quantity then
    .error ("Không đủ hàng trong kho. Còn lại: " ++ toString v.stock)
  else saveVariantResult { v with stock := v.stock - quantity }

/-- `unifiedVariantSchema.methods.incrementStock`. -/
def UnifiedVariant.incrementStock (v : UnifiedVariant) (quantity : Int) :
    Except String UnifiedVariant :=
  saveVariantResult { v with stock := v.stock + quantity }

/-- `unifiedVariantSchema.methods.incrementViews`. -/
def UnifiedVariant.incrementViews (v : UnifiedVariant) : Except String UnifiedVariant :=
  saveVariantResult { v with viewCount := v.viewCount + 1 }

/-- The per-field constraint exactly as the claim words it: a present
NUMBER parses as a number, a SELECT value is a member of `field.options`,
and a MULTISELECT value "is a sequence all of whose elements are members
of `field.options`" (so a non-sequence value violates the constraint). -/
def claimFieldOk (field : SpecField) (v : JsValue) : Bool :=
  match field.ftype with
  | .number => !v.numberIsNaN
  | .select => optionsInclude field.options (some v)
  | .multiselect =>
      match v with
      | .vArr xs => xs.all (fun e => optionsIncludeScalar field.options e)
      | _ => false
  | _ => true

/-- The validity condition exactly as the claim words it: every required
field has a present (non-empty) value and every present value satisfies
`claimFieldOk`. -/
def specValidClaimed (t : ProductType) (m : SpecMap) : Bool :=
  t.specificationFields.all (fun f => !f.required || specIsTruthy (some m) f.name) &&
  t.specificationFields.all (fun f =>
    match specGet m f.name with
    | none => true
    | some v => if v.truthy then claimFieldOk f v else true)

/-- The per-field constraint the code actually enforces: as `claimFieldOk`
except that a MULTISELECT value that is not a sequence passes unchecked
(the code guards the element check with `Array.isArray(value)` and raises
no error otherwise). -/
def amendedFieldOk (field : SpecField) (v : JsValue) : Bool :=
  match field.ftype with
  | .number => !v.numberIsNaN
  | .select => optionsInclude field.options (some v)
  | .multiselect =>
      match v with
      | .vArr xs => xs.all (fun e => optionsIncludeScalar field.options e)
      | _ => true
  | _ => true

/-- The amended validity condition: required fields present and present
values satisfying `amendedFieldOk`. -/
def specValidAmended (t : ProductType) (m : SpecMap) : Bool :=
  t.specificationFields.all (fun f => !f.required || specIsTruthy (some m) f.name) &&
  t.specificationFields.all (fun f =>
    match specGet m f.name with
    | none => true
    | some v => if v.truthy then amendedFieldOk f v else true)

/-- A multiselect-only ProductType used to exhibit the unchecked
non-sequence multiselect value. -/
def mselType : ProductType :=
  { id := 1, name := "T", slug := "t",
    specificationFields :=
      [{ name := "tags", label := "Tags", ftype := .multiselect,
         options := ["a"], required := false }] }

/-- For any value, the model validator's per-field error is absent exactly
when the amended constraint holds. -/
theorem modelFieldError_eq_none (f : SpecField) (v : JsValue) :
    (modelFieldError f v = none) ↔ amendedFieldOk f v = true := by
  cases hft : f.ftype
  · simp [modelFieldError, amendedFieldOk, hft]
  · cases hnan : v.numberIsNaN <;> simp [modelFieldError, amendedFieldOk, hft, hnan]
  · cases hinc : optionsInclude f.options (some v) <;>
      simp [modelFieldError, amendedFieldOk, hft, hinc]
  · cases v with
    | vStr s => simp [modelFieldError, amendedFieldOk, hft]
    | vNum n => simp [modelFieldError, amendedFieldOk, hft]
    | vArr xs =>
        have key : (xs.filter (fun e => !(optionsIncludeScalar f.options e))).isEmpty
            = xs.all (fun e => optionsIncludeScalar f.options e) := by
          induction xs with
          | nil => rfl
          | cons a as ih =>
              cases h : optionsIncludeScalar f.options a <;>
                simp [List.filter_cons, List.all_cons, h, ih]
        cases hie : (xs.filter (fun e => !(optionsIncludeScalar f.options e))).isEmpty <;>
          simp [modelFieldError, amendedFieldOk, hft, hie, ← key]
  · simp [modelFieldError, amendedFieldOk, hft]

/-- C1 (amended): for every ProductType `t` and specification map `m`,
`validateSpecifications(t, m).isValid` is `true` exactly when every
required field has a present non-empty value and every present non-empty
value satisfies its descriptor's constraint, where the MULTISELECT
constraint is only enforced on values that are sequences (a non-sequence
MULTISELECT value passes unchecked). -/
theorem c1_validate_isValid_iff_amended (t : ProductType) (m : SpecMap) :
    (t.validateSpecifications (some m)).isValid = specValidAmended t m := by
  have hpt : ∀ f : SpecField,
      ((match lookupSpec (some m) f.name with
        | none => none
        | some value => if !value.truthy then none else modelFieldError f value) =
          (none : Option String))
      ↔ ((match specGet m f.name with
          | none => true
          | some v => if v.truthy then amendedFieldOk f v else true) = true) := by
    intro f
    cases hv : specGet m f.name with
    | none => simp [lookupSpec, hv]
    | some v =>
        cases ht : v.truthy <;>
          simp [lookupSpec, hv, ht, modelFieldError_eq_none]
  rw [Bool.eq_iff_iff]
  simp only [ProductType.validateSpecifications, specValidAmended,
    ProductType.getRequiredFields, beq_iff_eq, List.length_eq_zero,
    List.append_eq_nil, List.filterMap_eq_nil_iff, List.all_eq_true,
    Bool.and_eq_true, List.mem_filter]
  constructor
  · rintro ⟨hreq, htype⟩
    refine ⟨fun f hf => ?_, fun f hf => (hpt f).mp (htype f hf)⟩
    cases hr : f.required
    · simp
    · have hmem := hreq f ⟨hf, hr⟩
      cases hs : specIsTruthy (some m) f.name
      · rw [hs] at hmem; simp at hmem
      · simp
  · rintro ⟨hreq, htype⟩
    refine ⟨fun f hf => ?_, fun f hf => (hpt f).mpr (htype f hf)⟩
    have hor := hreq f hf.1
    rw [hf.2] at hor
    simp only [Bool.not_true, Bool.false_or] at hor
    simp [hor]

/-- C1 counterexample: on the multiselect field `tags` with options
`["a"]`, the present value `"x"` is not a sequence, so the claimed
validity condition is `false`; yet the validator reports
`isValid = true`, so the claimed iff fails on this input. -/
theorem c1_counterexample :
    (mselType.validateSpecifications (some [("tags", JsValue.vStr "x")])).isValid = true ∧
    specValidClaimed mselType [("tags", JsValue.vStr "x")] = false := by
  constructor <;> rfl

/-- A `filterMap` keeps as many elements as the corresponding filter. -/
theorem length_filterMap_eq_length_filter {α β : Type} (f : α → Option β) (p : α → Bool)
    (h : ∀ a, (f a).isSome = p a) :
    ∀ l : List α, (l.filterMap f).length = (l.filter p).length := by
  intro l
  induction l with
  | nil => rfl
  | cons a l ih =>
      cases hfa : f a with
      | none =>
          have hpa : p a = false := by rw [← h a, hfa]; rfl
          simp [List.filterMap_cons, List.filter_cons, hfa, hpa, ih]
      | some b =>
          have hpa : p a = true := by rw [← h a, hfa]; rfl
          simp [List.filterMap_cons, List.filter_cons, hfa, hpa, ih]

/-- The model validator's per-field error is present exactly when the
amended constraint fails. -/
theorem modelFieldError_isSome (f : SpecField) (v : JsValue) :
    (modelFieldError f v).isSome = !(amendedFieldOk f v) := by
  cases hm : modelFieldError f v with
  | none =>
      have hok := (modelFieldError_eq_none f v).mp hm
      simp [hok]
  | some e =>
      have hno : ¬ (amendedFieldOk f v = true) := fun hok => by
        have h0 := (modelFieldError_eq_none f v).mpr hok
        rw [hm] at h0
        exact Option.noConfusion h0
      simp only [Bool.not_eq_true] at hno
      simp [hno]

/-- The number of violated constraints: one per required field without a
present non-empty value, plus one per present non-empty value that fails
its (amended) per-type constraint. -/
def countViolations (t : ProductType) (m : Option SpecMap) : Nat :=
  (t.getRequiredFields.filter (fun f => !(specIsTruthy m f.name))).length +
  (t.specificationFields.filter (fun f =>
      match lookupSpec m f.name with
      | none => false
      | some v => v.truthy && !(amendedFieldOk f v))).length

/-- C9 (amended): the model method `validateSpecifications` of
`ProductType.js` does aggregate — it returns exactly one error entry per
violated constraint.  (The separate controller helper used on the
create/update path instead stops at the first type/options violation; see
the counterexample.) -/
theorem c9_model_validator_aggregates (t : ProductType) (m : Option SpecMap) :
    (t.validateSpecifications m).errors.length = countViolations t m := by
  simp only [ProductType.validateSpecifications, countViolations]
  rw [List.length_append]
  congr 1
  · apply length_filterMap_eq_length_filter
    intro a
    cases hs : specIsTruthy m a.name <;> simp [hs]
  · apply length_filterMap_eq_length_filter
    intro a
    cases hv : lookupSpec m a.name with
    | none => simp [hv]
    | some v =>
        cases ht : v.truthy with
        | false => simp [hv, ht]
        | true => simp [hv, ht, modelFieldError_isSome]

/-- A ProductType with a number field and a select field, both violated by
`twoViolations`. -/
def twoFieldType : ProductType :=
  { id := 2, name := "U", slug := "u",
    specificationFields :=
      [{ name := "chip", label := "Chip", ftype := .number,
         options := [], required := false },
       { name := "color", label := "Color", ftype := .select,
         options := ["x"], required := false }] }

/-- A specification map violating both fields of `twoFieldType`. -/
def twoViolations : SpecMap := [("chip", JsValue.vStr "abc"), ("color", JsValue.vStr "y")]

/-- C9 counterexample: with two violated constraints, the validator used
during product create/update (`ctrlValidateSpecifications`) reports only
the first one, while the model validator on the same input counts two
violations — so the create/update path is not aggregated. -/
theorem c9_counterexample :
    ctrlValidateSpecifications [twoFieldType] 2 (some twoViolations) =
      Except.error "chip phải là số" ∧
    (twoFieldType.validateSpecifications (some twoViolations)).errors.length = 2 := by
  exact ⟨rfl, by decide⟩

/-- `^[a-z0-9]+(-[a-z0-9]+)*$` forbids two adjacent hyphens; this decides
that condition on the character list. -/
def noDoubleHyphen : List Char → Bool
  | [] => true
  | [_] => true
  | a :: b :: rest => !(a == '-' && b == '-') && noDoubleHyphen (b :: rest)

/-- The claim's output language `^[a-z0-9]+(-[a-z0-9]+)*$`, stated
structurally: nonempty, every character a lowercase letter, digit or
hyphen, no leading or trailing hyphen, and no two adjacent hyphens.
(These conditions describe exactly the strings matched by the regular
expression: maximal runs between hyphens are the nonempty `[a-z0-9]+`
groups.) -/
def matchesSlugRegex (s : String) : Bool :=
  let l := s.data
  !l.isEmpty &&
  l.all (fun c => (97 ≤ c.toNat && c.toNat ≤ 122) ||
                  (48 ≤ c.toNat && c.toNat ≤ 57) || c == '-') &&
  !(l.headD ' ' == '-') && !(l.reverse.headD ' ' == '-') && noDoubleHyphen l

/-- The amended output language `^[a-z0-9_]+(-[a-z0-9_]+)*$`: as the
claim's regex but also allowing underscores, which JS `\w` retains. -/
def matchesAmendedSlugRegex (s : String) : Bool :=
  let l := s.data
  !l.isEmpty &&
  l.all (fun c => (97 ≤ c.toNat && c.toNat ≤ 122) ||
                  (48 ≤ c.toNat && c.toNat ≤ 57) || c.toNat == 95 || c == '-') &&
  !(l.headD ' ' == '-') && !(l.reverse.headD ' ' == '-') && noDoubleHyphen l

/-- C4 counterexample: `createSlug` keeps underscores (JS `\w` includes
`_`), so `createSlug "a_b" = "a_b"`, which is neither empty nor matched by
`^[a-z0-9]+(-[a-z0-9]+)*$`. -/
theorem c4_counterexample :
    createSlug "a_b" = "a_b" ∧ matchesSlugRegex "a_b" = false ∧ ("a_b" : String) ≠ "" := by
  refine ⟨rfl, by decide, by decide⟩

/-- `jsToLower` in terms of character codes. -/
theorem toNat_jsToLower (c : Char) :
    (jsToLower c).toNat =
      if 65 ≤ c.toNat && c.toNat ≤ 90 then c.toNat + 32 else c.toNat := by
  unfold jsToLower
  split
  · rename_i h
    simp only [Bool.and_eq_true, decide_eq_true_eq] at h
    have hv : (c.toNat + 32).isValidChar := by
      have : c.toNat + 32 < 55296 := by omega
      exact Or.inl this
    simp only [Char.ofNat, Char.toNat, UInt32.toNat]
    have hv' : (c.val.toBitVec.toNat + 32).isValidChar := hv
    rw [dif_pos hv']
    simp [Char.ofNatAux, Char.toNat, UInt32.toNat]
  · rfl

/-- Lower-casing never yields an uppercase ASCII letter. -/
theorem jsToLower_not_upper (c : Char) :
    (65 ≤ (jsToLower c).toNat && (jsToLower c).toNat ≤ 90) = false := by
  rw [Bool.eq_false_iff]
  intro hcontra
  simp only [Bool.and_eq_true, decide_eq_true_eq] at hcontra
  rw [toNat_jsToLower] at hcontra
  rcases hcontra with ⟨h1, h2⟩
  by_cases h : (65 ≤ c.toNat && c.toNat ≤ 90) = true
  · rw [if_pos h] at h1 h2
    simp only [Bool.and_eq_true, decide_eq_true_eq] at h
    omega
  · rw [if_neg h] at h1 h2
    rw [Bool.not_eq_true, Bool.and_eq_false_iff] at h
    rcases h with h | h <;> simp only [decide_eq_false_iff_not, Nat.not_le] at h <;> omega

/-- Lower-casing fixes characters that are not uppercase ASCII letters. -/
theorem jsToLower_eq_self {c : Char} (h : (65 ≤ c.toNat && c.toNat ≤ 90) = false) :
    jsToLower c = c := by
  unfold jsToLower
  rw [if_neg (by rw [h]; exact Bool.false_ne_true)]

/-- Characters produced by `collapseSpaceRuns` come from the input or are
hyphens. -/
theorem mem_collapseSpaceRuns {c : Char} :
    ∀ {l : List Char} {b : Bool}, c ∈ collapseSpaceRuns l b → c ∈ l ∨ c = '-' := by
  intro l
  induction l with
  | nil => intro b h; exact absurd h (List.not_mem_nil c)
  | cons a rest ih =>
      intro b h
      by_cases ha : isJsSpace a = true
      · cases b with
        | true =>
            rw [collapseSpaceRuns, if_pos ha] at h
            rcases ih (b := true) h with h' | h'
            · exact Or.inl (List.mem_cons_of_mem a h')
            · exact Or.inr h'
        | false =>
            rw [collapseSpaceRuns, if_pos ha] at h
            rcases List.mem_cons.mp h with h' | h'
            · exact Or.inr h'
            · rcases ih (b := true) h' with h'' | h''
              · exact Or.inl (List.mem_cons_of_mem a h'')
              · exact Or.inr h''
      · rw [collapseSpaceRuns, if_neg ha] at h
        rcases List.mem_cons.mp h with h' | h'
        · exact Or.inl (h' ▸ List.mem_cons_self a rest)
        · rcases ih (b := false) h' with h'' | h''
          · exact Or.inl (List.mem_cons_of_mem a h'')
          · exact Or.inr h''

/-- `collapseSpaceRuns` fixes whitespace-free lists. -/
theorem collapseSpaceRuns_eq_self {l : List Char}
    (h : ∀ c ∈ l, isJsSpace c = false) : ∀ b, collapseSpaceRuns l b = l := by
  induction l with
  | nil => intro b; rfl
  | cons a rest ih =>
      intro b
      have ha := h a (List.mem_cons_self a rest)
      rw [collapseSpaceRuns, if_neg (by rw [ha]; exact Bool.false_ne_true)]
      rw [ih (fun c hc => h c (List.mem_cons_of_mem a hc)) false]

/-- Characters produced by `squeezeHyphens` come from the input. -/
theorem mem_squeezeHyphens {c : Char} :
    ∀ {l : List Char} {b : Bool}, c ∈ squeezeHyphens l b → c ∈ l := by
  intro l
  induction l with
  | nil => intro b h; exact absurd h (List.not_mem_nil c)
  | cons a rest ih =>
      intro b h
      by_cases ha : (a == '-') = true
      · cases b with
        | true =>
            rw [squeezeHyphens, if_pos ha] at h
            exact List.mem_cons_of_mem a (ih (b := true) h)
        | false =>
            rw [squeezeHyphens, if_pos ha] at h
            rcases List.mem_cons.mp h with h' | h'
            · have ha' : a = '-' := (beq_iff_eq ..).mp ha
              rw [h', ← ha']
              exact List.mem_cons_self a rest
            · exact List.mem_cons_of_mem a (ih (b := true) h')
      · rw [squeezeHyphens, if_neg ha] at h
        rcases List.mem_cons.mp h with h' | h'
        · exact h' ▸ List.mem_cons_self a rest
        · exact List.mem_cons_of_mem a (ih (b := false) h')

/-- A singleton never starts the output of `squeezeHyphens _ true` with a
hyphen. -/
theorem squeezeHyphens_true_head :
    ∀ l : List Char, (squeezeHyphens l true).head? ≠ some '-' := by
  intro l
  induction l with
  | nil => intro h; exact Option.noConfusion h
  | cons a rest ih =>
      by_cases ha : (a == '-') = true
      · rw [squeezeHyphens, if_pos ha]
        exact ih
      · rw [squeezeHyphens, if_neg ha]
        intro h
        have : a = '-' := Option.some.inj h
        exact ha ((beq_iff_eq ..).mpr this)

/-- Extending a hyphen-separated list by a safe head keeps it
hyphen-separated. -/
theorem noDoubleHyphen_cons {c : Char} {xs : List Char}
    (hhead : c = '-' → xs.head? ≠ some '-') (hxs : noDoubleHyphen xs = true) :
    noDoubleHyphen (c :: xs) = true := by
  cases xs with
  | nil => rfl
  | cons b rest =>
      rw [noDoubleHyphen, Bool.and_eq_true]
      refine ⟨?_, hxs⟩
      rw [Bool.not_eq_true', Bool.and_eq_false_iff]
      by_cases hc : (c == '-') = true
      · have hb := hhead ((beq_iff_eq ..).mp hc)
        right
        rw [Bool.eq_false_iff]
        intro hb'
        exact hb (congrArg some ((beq_iff_eq ..).mp hb'))
      · exact Or.inl (Bool.not_eq_true _ ▸ hc)

/-- The tail of a hyphen-separated list is hyphen-separated. -/
theorem noDoubleHyphen_tail {c : Char} {xs : List Char}
    (h : noDoubleHyphen (c :: xs) = true) : noDoubleHyphen xs = true := by
  cases xs with
  | nil => rfl
  | cons b rest =>
      rw [noDoubleHyphen, Bool.and_eq_true] at h
      exact h.2

/-- `squeezeHyphens` yields a hyphen-separated list. -/
theorem noDoubleHyphen_squeezeHyphens :
    ∀ (l : List Char) (b : Bool), noDoubleHyphen (squeezeHyphens l b) = true := by
  intro l
  induction l with
  | nil => intro b; rfl
  | cons a rest ih =>
      intro b
      by_cases ha : (a == '-') = true
      · cases b with
        | true => rw [squeezeHyphens, if_pos ha]; exact ih true
        | false =>
            rw [squeezeHyphens, if_pos ha]
            exact noDoubleHyphen_cons (fun _ => squeezeHyphens_true_head rest) (ih true)
      · rw [squeezeHyphens, if_neg ha]
        refine noDoubleHyphen_cons (fun hc => ?_) (ih false)
        exact absurd ((beq_iff_eq ..).mpr hc) ha

/-- `squeezeHyphens` fixes hyphen-separated lists (when not already inside
a run, or when the list does not begin with a hyphen). -/
theorem squeezeHyphens_eq_self :
    ∀ {l : List Char} {b : Bool}, noDoubleHyphen l = true →
      (b = true → l.head? ≠ some '-') → squeezeHyphens l b = l := by
  intro l
  induction l with
  | nil => intro b _ _; rfl
  | cons a rest ih =>
      intro b hnd hb
      by_cases ha : (a == '-') = true
      · have haeq : a = '-' := (beq_iff_eq ..).mp ha
        cases b with
        | true => exact absurd (congrArg some haeq) (hb rfl)
        | false =>
            rw [squeezeHyphens, if_pos ha]
            have hrest : rest.head? ≠ some '-' := by
              cases rest with
              | nil => intro h; exact Option.noConfusion h
              | cons b' rest' =>
                  intro h
                  have hb' : b' = '-' := Option.some.inj h
                  rw [noDoubleHyphen, haeq, hb'] at hnd
                  simp at hnd
            rw [ih (noDoubleHyphen_tail hnd) (fun _ => hrest)]
            simp [haeq]
      · rw [squeezeHyphens, if_neg ha]
        rw [ih (noDoubleHyphen_tail hnd) (fun hfalse => Bool.noConfusion hfalse)]

/-- The right part of a hyphen-separated concatenation is
hyphen-separated. -/
theorem noDoubleHyphen_append_right :
    ∀ {l₁ l₂ : List Char}, noDoubleHyphen (l₁ ++ l₂) = true → noDoubleHyphen l₂ = true := by
  intro l₁
  induction l₁ with
  | nil => intro l₂ h; exact h
  | cons a rest ih => intro l₂ h; exact ih (noDoubleHyphen_tail h)

/-- The left part of a hyphen-separated concatenation is
hyphen-separated. -/
theorem noDoubleHyphen_append_left :
    ∀ {l₁ l₂ : List Char}, noDoubleHyphen (l₁ ++ l₂) = true → noDoubleHyphen l₁ = true := by
  intro l₁
  induction l₁ with
  | nil => intro l₂ _; rfl
  | cons a rest ih =>
      intro l₂ h
      cases rest with
      | nil => rfl
      | cons b rest' =>
          rw [List.cons_append, List.cons_append, noDoubleHyphen, Bool.and_eq_true] at h
          rw [noDoubleHyphen, Bool.and_eq_true]
          exact ⟨h.1, ih (by rw [List.cons_append]; exact h.2)⟩

/-- The head surviving `dropWhile` fails the predicate. -/
theorem head?_dropWhile {p : Char → Bool} :
    ∀ {l : List Char} {a : Char}, (l.dropWhile p).head? = some a → p a = false := by
  intro l
  induction l with
  | nil => intro a h; exact Option.noConfusion h
  | cons c rest ih =>
      intro a h
      by_cases hc : p c = true
      · rw [List.dropWhile_cons, if_pos hc] at h
        exact ih h
      · rw [List.dropWhile_cons, if_neg hc] at h
        have : c = a := Option.some.inj h
        exact this ▸ Bool.not_eq_true _ ▸ hc

/-- `dropWhile` fixes a list whose head fails the predicate. -/
theorem dropWhile_eq_self {p : Char → Bool} {l : List Char}
    (h : ∀ a, l.head? = some a → p a = false) : l.dropWhile p = l := by
  cases l with
  | nil => rfl
  | cons c rest =>
      rw [List.dropWhile_cons, if_neg (by rw [h c rfl]; exact Bool.false_ne_true)]

/-- Character-code case split for a character that is a JS word character
or a hyphen. -/
theorem wordOrHyphen_toNat {c : Char} (h : (isJsWordChar c || c == '-') = true) :
    (97 ≤ c.toNat ∧ c.toNat ≤ 122) ∨ (65 ≤ c.toNat ∧ c.toNat ≤ 90) ∨
    (48 ≤ c.toNat ∧ c.toNat ≤ 57) ∨ c.toNat = 95 ∨ c = '-' := by
  rw [Bool.or_eq_true] at h
  rcases h with h | h
  · unfold isJsWordChar at h
    rw [Bool.or_eq_true, Bool.or_eq_true, Bool.or_eq_true] at h
    rcases h with ((h | h) | h) | h
    · rw [Bool.and_eq_true, decide_eq_true_eq, decide_eq_true_eq] at h
      exact Or.inl h
    · rw [Bool.and_eq_true, decide_eq_true_eq, decide_eq_true_eq] at h
      exact Or.inr (Or.inl h)
    · rw [Bool.and_eq_true, decide_eq_true_eq, decide_eq_true_eq] at h
      exact Or.inr (Or.inr (Or.inl h))
    · exact Or.inr (Or.inr (Or.inr (Or.inl ((beq_iff_eq ..).mp h))))
  · exact Or.inr (Or.inr (Or.inr (Or.inr ((beq_iff_eq ..).mp h))))

/-- Word characters and hyphens are not combining marks. -/
theorem wordOrHyphen_not_combining {c : Char}
    (h : (isJsWordChar c || c == '-') = true) : isCombiningMark c = false := by
  rcases wordOrHyphen_toNat h with h' | h' | h' | h' | h'
  · rw [Bool.eq_false_iff]; intro hcon
    simp only [isCombiningMark, Bool.and_eq_true, decide_eq_true_eq] at hcon; omega
  · rw [Bool.eq_false_iff]; intro hcon
    simp only [isCombiningMark, Bool.and_eq_true, decide_eq_true_eq] at hcon; omega
  · rw [Bool.eq_false_iff]; intro hcon
    simp only [isCombiningMark, Bool.and_eq_true, decide_eq_true_eq] at hcon; omega
  · rw [Bool.eq_false_iff]; intro hcon
    simp only [isCombiningMark, Bool.and_eq_true, decide_eq_true_eq] at hcon; omega
  · subst h'; decide

/-- Word characters and hyphens are not JS whitespace. -/
theorem wordOrHyphen_not_space {c : Char}
    (h : (isJsWordChar c || c == '-') = true) : isJsSpace c = false := by
  rcases wordOrHyphen_toNat h with h' | h' | h' | h' | h'
  · rw [Bool.eq_false_iff]; intro hcon
    simp only [isJsSpace, Bool.or_eq_true, Bool.and_eq_true, decide_eq_true_eq,
      beq_iff_eq] at hcon; omega
  · rw [Bool.eq_false_iff]; intro hcon
    simp only [isJsSpace, Bool.or_eq_true, Bool.and_eq_true, decide_eq_true_eq,
      beq_iff_eq] at hcon; omega
  · rw [Bool.eq_false_iff]; intro hcon
    simp only [isJsSpace, Bool.or_eq_true, Bool.and_eq_true, decide_eq_true_eq,
      beq_iff_eq] at hcon; omega
  · rw [Bool.eq_false_iff]; intro hcon
    simp only [isJsSpace, Bool.or_eq_true, Bool.and_eq_true, decide_eq_true_eq,
      beq_iff_eq] at hcon; omega
  · subst h'; decide

/-- The five structural facts about every `slugPipeline` output: all
characters are word characters or hyphens, none is an uppercase ASCII
letter, hyphens never repeat, and no hyphen starts or ends the output. -/
theorem slugPipeline_props (l : List Char) :
    (∀ c ∈ slugPipeline l, (isJsWordChar c || c == '-') = true) ∧
    (∀ c ∈ slugPipeline l, (65 ≤ c.toNat && c.toNat ≤ 90) = false) ∧
    noDoubleHyphen (slugPipeline l) = true ∧
    (slugPipeline l).head? ≠ some '-' ∧
    (slugPipeline l).reverse.head? ≠ some '-' := by
  dsimp only [slugPipeline]
  set L2 := (l.map jsToLower).filter (fun c => !(isCombiningMark c)) with hL2
  set L3 := collapseSpaceRuns L2 false with hL3
  set L4 := L3.filter (fun c => isJsWordChar c || c == '-') with hL4
  set L5 := squeezeHyphens L4 false with hL5
  set L6 := L5.dropWhile (fun c => c == '-') with hL6
  set OUT := (L6.reverse.dropWhile (fun c => c == '-')).reverse with hOUT
  have hmem6 : ∀ c ∈ L6, c ∈ L4 := by
    intro c hc
    exact mem_squeezeHyphens ((List.dropWhile_suffix _).subset hc)
  have hmemOUT : ∀ c ∈ OUT, c ∈ L4 := by
    intro c hc
    rw [hOUT, List.mem_reverse] at hc
    exact hmem6 c (List.mem_reverse.mp ((List.dropWhile_suffix _).subset hc))
  have hword : ∀ c ∈ OUT, (isJsWordChar c || c == '-') = true := by
    intro c hc
    exact (List.mem_filter.mp (hmemOUT c hc)).2
  refine ⟨hword, ?_, ?_, ?_, ?_⟩
  · intro c hc
    rcases mem_collapseSpaceRuns (List.mem_filter.mp (hmemOUT c hc)).1 with h2 | h2
    · rcases List.mem_map.mp (List.mem_filter.mp h2).1 with ⟨d, _, hd⟩
      rw [← hd]
      exact jsToLower_not_upper d
    · subst h2; decide
  · have hnd5 : noDoubleHyphen L5 = true := noDoubleHyphen_squeezeHyphens L4 false
    obtain ⟨t, ht⟩ := List.dropWhile_suffix (l := L5) (fun c => c == '-')
    have hnd6 : noDoubleHyphen L6 = true := noDoubleHyphen_append_right (ht ▸ hnd5)
    have hpre : OUT <+: L6 := by
      rw [← List.reverse_suffix, hOUT, List.reverse_reverse]
      exact List.dropWhile_suffix _
    obtain ⟨t2, ht2⟩ := hpre
    exact noDoubleHyphen_append_left (ht2 ▸ hnd6)
  · intro hcon
    have hpre : OUT <+: L6 := by
      rw [← List.reverse_suffix, hOUT, List.reverse_reverse]
      exact List.dropWhile_suffix _
    obtain ⟨t2, ht2⟩ := hpre
    have h6 : L6.head? = some '-' := by
      rw [← ht2, List.head?_append, hcon]
      rfl
    have := head?_dropWhile (l := L5) h6
    simp at this
  · intro hcon
    rw [hOUT, List.reverse_reverse] at hcon
    have := head?_dropWhile (l := L6.reverse) hcon
    simp at this

/-- `slugPipeline` fixes every list satisfying its own output facts. -/
theorem slugPipeline_eq_self {l : List Char}
    (hword : ∀ c ∈ l, (isJsWordChar c || c == '-') = true)
    (hupper : ∀ c ∈ l, (65 ≤ c.toNat && c.toNat ≤ 90) = false)
    (hnd : noDoubleHyphen l = true)
    (hhead : l.head? ≠ some '-')
    (hlast : l.reverse.head? ≠ some '-') :
    slugPipeline l = l := by
  have hmap : l.map jsToLower = l := by
    rw [List.map_congr_left (fun c hc => jsToLower_eq_self (hupper c hc))]
    exact List.map_id l
  have hcomb : l.filter (fun c => !(isCombiningMark c)) = l :=
    List.filter_eq_self.mpr (fun c hc => by
      rw [wordOrHyphen_not_combining (hword c hc)]; rfl)
  have hcoll : collapseSpaceRuns l false = l :=
    collapseSpaceRuns_eq_self (fun c hc => wordOrHyphen_not_space (hword c hc)) false
  have hfilt : l.filter (fun c => isJsWordChar c || c == '-') = l :=
    List.filter_eq_self.mpr (fun c hc => hword c hc)
  have hsq : squeezeHyphens l false = l :=
    squeezeHyphens_eq_self hnd (fun hfalse => Bool.noConfusion hfalse)
  have hdropH : ∀ a, l.head? = some a → (a == '-') = false := by
    intro a ha
    rw [Bool.eq_false_iff]
    intro hcon
    exact hhead (((beq_iff_eq ..).mp hcon) ▸ ha)
  have hdropL : ∀ a, l.reverse.head? = some a → (a == '-') = false := by
    intro a ha
    rw [Bool.eq_false_iff]
    intro hcon
    exact hlast (((beq_iff_eq ..).mp hcon) ▸ ha)
  dsimp only [slugPipeline]
  rw [hmap, hcomb, hcoll, hfilt, hsq, dropWhile_eq_self hdropH,
    dropWhile_eq_self hdropL, List.reverse_reverse]

/-- C4 (amended): `createSlug` is a total, idempotent function on strings,
and its output is either empty or matches `^[a-z0-9_]+(-[a-z0-9_]+)*$` —
as claimed except that underscores may also occur, because the `[^\w\-]+`
filter keeps every JS word character and `\w` includes `_`. -/
theorem c4_createSlug_idempotent_and_shape (s : String) :
    createSlug (createSlug s) = createSlug s ∧
    (createSlug s = "" ∨ matchesAmendedSlugRegex (createSlug s) = true) := by
  obtain ⟨hword, hupper, hnd, hhead, hlast⟩ := slugPipeline_props s.data
  have hdata : (createSlug s).data = slugPipeline s.data := rfl
  constructor
  · show String.mk (slugPipeline (createSlug s).data) = createSlug s
    rw [hdata, slugPipeline_eq_self hword hupper hnd hhead hlast]
    rfl
  · cases hnil : slugPipeline s.data with
    | nil =>
        left
        show String.mk (slugPipeline s.data) = ""
        rw [hnil]
    | cons a rest =>
        right
        dsimp only [matchesAmendedSlugRegex]
        rw [hdata, hnil]
        rw [← hnil]
        simp only [Bool.and_eq_true]
        refine ⟨⟨⟨⟨?_, ?_⟩, ?_⟩, ?_⟩, hnd⟩
        · rw [hnil]; rfl
        · rw [List.all_eq_true]
          intro c hc
          rcases wordOrHyphen_toNat (hword c hc) with h' | h' | h' | h' | h'
          · simp only [Bool.or_eq_true, Bool.and_eq_true, decide_eq_true_eq]
            exact Or.inl (Or.inl (Or.inl h'))
          · have htrue : (decide (65 ≤ c.toNat) && decide (c.toNat ≤ 90)) = true := by
              rw [Bool.and_eq_true]
              exact ⟨decide_eq_true h'.1, decide_eq_true h'.2⟩
            have hcon := hupper c hc
            rw [htrue] at hcon
            exact Bool.noConfusion hcon
          · simp only [Bool.or_eq_true, Bool.and_eq_true, decide_eq_true_eq]
            exact Or.inl (Or.inl (Or.inr h'))
          · simp only [Bool.or_eq_true, Bool.and_eq_true, decide_eq_true_eq, beq_iff_eq]
            exact Or.inl (Or.inr h')
          · subst h'; decide
        · rw [hnil, List.headD_eq_head?]
          cases hne : (a :: rest).head? with
          | none => exact Option.noConfusion hne
          | some b =>
              have hb : a = b := Option.some.inj hne
              rw [← hnil] at hne
              have : b ≠ '-' := fun hcon => hhead (hcon ▸ hne)
              simp [this]
        · rw [hnil, List.headD_eq_head?]
          rw [← hnil]
          cases hne : (slugPipeline s.data).reverse.head? with
          | none =>
              rw [hnil] at hne
              rw [List.head?_eq_head (l := (a :: rest).reverse)
                  (by simp)] at hne
              exact Option.noConfusion hne
          | some b =>
              have : b ≠ '-' := fun hcon => hlast (hcon ▸ hne)
              simp [this]

/-- A successful variant save passed all rejections and returned the
document unchanged. -/
theorem saveVariantResult_ok {v v' : UnifiedVariant}
    (h : saveVariantResult v = Except.ok v') :
    v' = v ∧ saveVariantChecks v = Except.ok () := by
  unfold saveVariantResult at h
  cases hc : saveVariantChecks v with
  | error e => rw [hc] at h; exact Except.noConfusion h
  | ok u =>
      cases u
      rw [hc] at h
      exact ⟨(Except.ok.inj h).symm, rfl⟩

/-- Passing the save rejections implies the price invariant. -/
theorem saveVariantChecks_ok_price {v : UnifiedVariant}
    (h : saveVariantChecks v = Except.ok ()) : v.price ≤ v.originalPrice := by
  unfold saveVariantChecks at h
  by_cases hp : v.price > v.originalPrice
  · rw [if_pos hp] at h; exact Except.noConfusion h
  · omega

/-- Characterization of a successful `insertVariant`. -/
theorem insertVariant_ok {st st' : DbState} {v : UnifiedVariant}
    (h : insertVariant st v = Except.ok st') :
    saveVariantChecks v = Except.ok () ∧
    st.variantDocs.any (fun w => w.sku == v.sku) = false ∧
    st' = { st with variantDocs := st.variantDocs ++ [v] } := by
  unfold insertVariant at h
  cases hc : saveVariantChecks v with
  | error e => rw [hc] at h; exact Except.noConfusion h
  | ok u =>
      cases u
      rw [hc] at h
      by_cases hdup : st.variantDocs.any (fun w => w.sku == v.sku) = true
      · rw [if_pos hdup] at h; exact Except.noConfusion h
      · rw [if_neg hdup] at h
        exact ⟨rfl, Bool.eq_false_iff.mpr hdup, (Except.ok.inj h).symm⟩

/-- C6: a variant save with `price > originalPrice` is rejected by the
pre-save hook; consequently the document produced by any successful
saving operation (plain save, `incrementSales`, `decrementStock`,
`incrementStock`, `incrementViews`) satisfies `price ≤ originalPrice`,
and batch insertion (creation / wholesale replacement) preserves the
invariant across the store. -/
theorem c6_price_invariant (v v' : UnifiedVariant) (q : Int) (st st' : DbState) :
    (v.price > v.originalPrice →
      saveVariantResult v = Except.error "Giá bán không được lớn hơn giá gốc") ∧
    ((saveVariantResult v = Except.ok v' ∨
      v.incrementSales q = Except.ok v' ∨
      v.decrementStock q = Except.ok v' ∨
      v.incrementStock q = Except.ok v' ∨
      v.incrementViews = Except.ok v') → v'.price ≤ v'.originalPrice) ∧
    (insertVariant st v = Except.ok st' →
      (∀ w ∈ st.variantDocs, w.price ≤ w.originalPrice) →
      ∀ w ∈ st'.variantDocs, w.price ≤ w.originalPrice) := by
  refine ⟨?_, ?_, ?_⟩
  · intro h
    unfold saveVariantResult saveVariantChecks
    rw [if_pos h]
  · intro h
    have key : ∀ u : UnifiedVariant, saveVariantResult u = Except.ok v' →
        v'.price ≤ v'.originalPrice := by
      intro u hu
      obtain ⟨hv', hchk⟩ := saveVariantResult_ok hu
      rw [hv']
      exact saveVariantChecks_ok_price hchk
    rcases h with h | h | h | h | h
    · exact key v h
    · exact key _ h
    · unfold UnifiedVariant.decrementStock at h
      by_cases hs : v.stock < q
      · rw [if_pos hs] at h; exact Except.noConfusion h
      · rw [if_neg hs] at h; exact key _ h
    · exact key _ h
    · exact key _ h
  · intro h hall w hw
    obtain ⟨hchk, _, hst⟩ := insertVariant_ok h
    rw [hst] at hw
    rcases List.mem_append.mp hw with hw | hw
    · exact hall w hw
    · rw [List.mem_singleton.mp hw]
      exact saveVariantChecks_ok_price hchk

/-- An in-invariant variant document used by the witnesses. -/
def vGood : UnifiedVariant :=
  { id := 0, productId := 0, color := "Black", versionName := "256GB",
    originalPrice := 100, price := 90, stock := 5, images := [],
    sku := "SKU-0", slug := "p-256gb", salesCount := 0, viewCount := 0 }

/-- `vGood` with an overpriced sale price. -/
def vBad : UnifiedVariant := { vGood with price := 110 }

/-- An empty document store. -/
def emptyDb : DbState :=
  { productTypes := [], products := [], variantDocs := [],
    nextProductId := 0, nextVariantId := 0, skuCounter := 0 }

/-- Witness for C6 at concrete documents. -/
theorem c6_price_invariant_witness :
    saveVariantResult vBad = Except.error "Giá bán không được lớn hơn giá gốc" ∧
    vGood.price ≤ vGood.originalPrice := by
  constructor
  · exact (c6_price_invariant vBad vBad 1 emptyDb emptyDb).1 (by decide)
  · exact (c6_price_invariant vGood vGood 1 emptyDb emptyDb).2.1 (Or.inl rfl)

/-- The invariants every persisted variant document satisfies (they are
exactly what `saveVariantChecks` enforced when it was written, minus the
stock bound, which is not needed for the statement). -/
def VariantWF (v : UnifiedVariant) : Prop :=
  v.price ≤ v.originalPrice ∧ 0 ≤ v.originalPrice ∧ 0 ≤ v.price ∧
  0 ≤ v.salesCount ∧ 0 ≤ v.viewCount ∧
  v.color ≠ "" ∧ v.versionName ≠ "" ∧ v.sku ≠ ""

instance (v : UnifiedVariant) : Decidable (VariantWF v) := by
  unfold VariantWF; infer_instance

/-- C7: `decrementStock(v, n)` throws (persisting nothing) whenever
`n > v.stock`, and otherwise succeeds, the stored document differing from
`v` only in `stock`, which becomes `v.stock - n`. -/
theorem c7_decrementStock (v : UnifiedVariant) (n : Int) :
    (v.stock < n →
      v.decrementStock n =
        Except.error ("Không đủ hàng trong kho. Còn lại: " ++ toString v.stock)) ∧
    (n ≤ v.stock → VariantWF v →
      v.decrementStock n = Except.ok { v with stock := v.stock - n }) := by
  constructor
  · intro h
    unfold UnifiedVariant.decrementStock
    rw [if_pos h]
  · intro hn hwf
    obtain ⟨h1, h2, h3, h4, h5, h6, h7, h8⟩ := hwf
    unfold UnifiedVariant.decrementStock
    rw [if_neg (by omega : ¬ v.stock < n)]
    unfold saveVariantResult saveVariantChecks
    rw [if_neg (by simp only; omega : ¬ ({ v with stock := v.stock - n } : UnifiedVariant).price > v.originalPrice)]
    rw [if_neg (by
      simp only [Bool.or_eq_true, decide_eq_true_eq]
      omega)]
    rw [if_neg (by
      simp only [Bool.or_eq_true, beq_iff_eq]
      intro hcon
      rcases hcon with (hcon | hcon) | hcon
      · exact h6 hcon
      · exact h7 hcon
      · exact h8 hcon)]

/-- Witness for C7 at a concrete document: quantity 10 exceeds the stock
of 5 and is refused; quantity 2 succeeds leaving stock 3. -/
theorem c7_decrementStock_witness :
    vGood.decrementStock 10 =
      Except.error ("Không đủ hàng trong kho. Còn lại: " ++ toString vGood.stock) ∧
    vGood.decrementStock 2 = Except.ok { vGood with stock := vGood.stock - 2 } := by
  constructor
  · exact (c7_decrementStock vGood 10).1 (by decide)
  · exact (c7_decrementStock vGood 2).2 (by decide) (by decide)

/-- C8: deleting a ProductType that is referenced by at least one product
fails with the referential error and leaves the whole store unchanged;
when deletion succeeds the referencing count was zero, the products and
variants are untouched and exactly the type document is removed. -/
theorem c8_deleteProductType (st : DbState) (tid : Nat) (t : ProductType)
    (hfind : st.productTypes.find? (fun x => x.id == tid) = some t) :
    (0 < (st.products.filter (fun p => p.productTypeId == tid)).length →
      deleteProductTypeOp st tid =
        (Except.error ("Không thể xóa. Có "
           ++ toString (st.products.filter (fun p => p.productTypeId == tid)).length
           ++ " sản phẩm đang sử dụng loại này"), st)) ∧
    (∀ st', deleteProductTypeOp st tid = (Except.ok (), st') →
      (st.products.filter (fun p => p.productTypeId == tid)).length = 0 ∧
      st'.products = st.products ∧ st'.variantDocs = st.variantDocs ∧
      st'.productTypes = st.productTypes.eraseP (fun x => x.id == tid)) := by
  unfold deleteProductTypeOp
  rw [hfind]
  constructor
  · intro hpos
    simp only
    rw [if_pos hpos]
  · intro st' h
    simp only at h
    by_cases hpos : 0 < (st.products.filter (fun p => p.productTypeId == tid)).length
    · rw [if_pos hpos] at h
      have hfst := congrArg Prod.fst h
      exact Except.noConfusion hfst
    · rw [if_neg hpos] at h
      have hsnd := congrArg Prod.snd h
      simp only at hsnd
      refine ⟨Nat.eq_zero_of_not_pos hpos, ?_, ?_, ?_⟩
      · rw [← hsnd]
      · rw [← hsnd]
      · rw [← hsnd]

/-- A ProductType document used by the C8 witness. -/
def t7 : ProductType := { id := 7, name := "Laptop", slug := "laptop", specificationFields := [] }

/-- A product referencing `t7`. -/
def p7 : UnifiedProduct :=
  { id := 1, name := "MacBook", model := "MBA13", slug := "mba13", baseSlug := "mba13",
    description := "", productTypeId := 7, specifications := [], condition := "NEW",
    brand := "Apple", status := "AVAILABLE", installmentBadge := "NONE",
    featuredImages := [], videoUrl := "", variants := [], createdBy := 1 }

/-- A store in which `t7` is still referenced by `p7`. -/
def stReferenced : DbState :=
  { productTypes := [t7], products := [p7], variantDocs := [],
    nextProductId := 2, nextVariantId := 0, skuCounter := 0 }

/-- A store in which `t7` is unreferenced. -/
def stFree : DbState :=
  { productTypes := [t7], products := [], variantDocs := [],
    nextProductId := 2, nextVariantId := 0, skuCounter := 0 }

/-- Witness for C8: with one referencing product the delete is refused and
the store is unchanged; without referencing products the delete removes
exactly the type document. -/
theorem c8_deleteProductType_witness :
    deleteProductTypeOp stReferenced 7 =
      (Except.error ("Không thể xóa. Có "
         ++ toString (stReferenced.products.filter (fun p => p.productTypeId == 7)).length
         ++ " sản phẩm đang sử dụng loại này"), stReferenced) ∧
    stFree.productTypes.eraseP (fun x => x.id == 7) = [] ∧
    (deleteProductTypeOp stFree 7).2.productTypes = [] := by
  refine ⟨(c8_deleteProductType stReferenced 7 t7 rfl).1 (by decide), by decide, ?_⟩
  have h := (c8_deleteProductType stFree 7 t7 rfl).2
    { stFree with productTypes := [] } rfl
  rw [show (deleteProductTypeOp stFree 7).2 = { stFree with productTypes := [] } from rfl]

/-- When the referenced ProductType has a required field without a truthy
value, the controller validator throws. -/
theorem ctrlValidateSpecifications_missing {pts : List ProductType} {tid : Nat}
    {specs : Option SpecMap} {t : ProductType}
    (hfind : pts.find? (fun x => x.id == tid) = some t)
    (hmissing : ∃ f ∈ t.specificationFields, f.required = true ∧
        specIsTruthy specs f.name = false) :
    ∃ e, ctrlValidateSpecifications pts tid specs = Except.error e := by
  unfold ctrlValidateSpecifications
  rw [hfind]
  obtain ⟨f, hf, hreq, hns⟩ := hmissing
  have hmem : f.name ∈ ((t.specificationFields.filter (fun x => x.required)).map
      (fun x => x.name)).filter (fun fn => !(specIsTruthy specs fn)) := by
    refine List.mem_filter.mpr ⟨?_, by rw [hns]; rfl⟩
    exact List.mem_map.mpr ⟨f, List.mem_filter.mpr ⟨hf, hreq⟩, rfl⟩
  have hne : (((t.specificationFields.filter (fun x => x.required)).map
      (fun x => x.name)).filter (fun fn => !(specIsTruthy specs fn))).isEmpty = false := by
    cases hl : ((t.specificationFields.filter (fun x => x.required)).map
        (fun x => x.name)).filter (fun fn => !(specIsTruthy specs fn)) with
    | nil => rw [hl] at hmem; exact absurd hmem (List.not_mem_nil _)
    | cons a l => rfl
  simp only
  rw [if_pos (by rw [hne]; rfl)]
  exact ⟨_, rfl⟩

/-- C3: a create request whose specifications lack a required field of the
referenced ProductType is rejected as a whole: the response is an error
and the returned store is exactly the initial one — no product document,
no variant document, no reference-list change survives. -/
theorem c3_create_missing_required (st : DbState) (req : CreateRequest)
    (tid : Nat) (t : ProductType)
    (htid : req.productTypeId = some tid)
    (hfind : st.productTypes.find? (fun x => x.id == tid) = some t)
    (hmissing : ∃ f ∈ t.specificationFields, f.required = true ∧
        specIsTruthy req.specifications f.name = false) :
    ∃ e, createProduct st req = (Except.error e, st) := by
  suffices h : ∃ e, createProductTx st req = Except.error e by
    obtain ⟨e, he⟩ := h
    refine ⟨e, ?_⟩
    unfold createProduct
    rw [he]
  unfold createProductTx
  by_cases h1 : (jsTrim req.name == "") = true
  · rw [if_pos h1]; exact ⟨_, rfl⟩
  · rw [if_neg h1]
    by_cases h2 : (jsTrim req.model == "") = true
    · rw [if_pos h2]; exact ⟨_, rfl⟩
    · rw [if_neg h2]
      rw [htid]
      simp only
      cases hcb : req.createdBy with
      | none => exact ⟨_, rfl⟩
      | some cb =>
          obtain ⟨e, he⟩ := ctrlValidateSpecifications_missing hfind hmissing
          rw [he]
          exact ⟨e, rfl⟩

/-- The iPhone-like ProductType of the C3 witness: one required field. -/
def iphoneType : ProductType :=
  { id := 3, name := "iPhone", slug := "iphone",
    specificationFields :=
      [{ name := "chip", label := "Chip", ftype := .text, options := [], required := true }] }

/-- A store containing only `iphoneType`. -/
def stC3 : DbState :=
  { productTypes := [iphoneType], products := [], variantDocs := [],
    nextProductId := 0, nextVariantId := 0, skuCounter := 0 }

/-- A create request that references `iphoneType` but supplies no
specification for the required `chip` field. -/
def reqC3 : CreateRequest :=
  { name := "iPhone 15", model := "A3090", slug := none, productTypeId := some 3,
    specifications := some [], description := none, condition := none, brand := none,
    status := none, installmentBadge := none, createdBy := some 1,
    featuredImages := none, videoUrl := none, variantGroups := [] }

/-- Witness for C3 at the concrete store and request. -/
theorem c3_create_missing_required_witness :
    (∃ f ∈ iphoneType.specificationFields, f.required = true ∧
        specIsTruthy reqC3.specifications f.name = false) ∧
    ∃ e, createProduct stC3 reqC3 = (Except.error e, stC3) :=
  ⟨by decide, c3_create_missing_required stC3 reqC3 3 iphoneType rfl rfl (by decide)⟩

/-- Code of a decimal digit character. -/
theorem digitChar_toNat {d : Nat} (h : d ≤ 9) : (digitChar d).toNat = 48 + d := by
  unfold digitChar
  have hv : (48 + d).isValidChar := Or.inl (by omega)
  simp only [Char.ofNat, Char.toNat, UInt32.toNat]
  rw [dif_pos hv]
  simp [Char.ofNatAux, Char.toNat, UInt32.toNat]

/-- Folding the decimal digits of `n` over `acc ↦ 10*acc + digit`
reconstructs `n` (on top of the scaled accumulator). -/
theorem foldl_natDigitsAux :
    ∀ (fuel n : Nat), n ≤ fuel → ∀ a : Nat,
      (natDigitsAux fuel n).foldl (fun acc c => 10 * acc + (c.toNat - 48)) a =
        a * 10 ^ (natDigitsAux fuel n).length + n := by
  intro fuel
  induction fuel with
  | zero =>
      intro n hn a
      have hn0 : n = 0 := Nat.le_zero.mp hn
      subst hn0
      simp [natDigitsAux]
  | succ fuel ih =>
      intro n hn a
      by_cases h0 : n = 0
      · subst h0; simp [natDigitsAux]
      · rw [natDigitsAux, if_neg h0]
        rw [List.foldl_append]
        rw [ih (n / 10) (by omega) a]
        simp only [List.foldl_cons, List.foldl_nil, List.length_append, List.length_cons,
          List.length_nil]
        rw [digitChar_toNat (by omega : n % 10 ≤ 9)]
        have hdig : 48 + n % 10 - 48 = n % 10 := by omega
        rw [hdig]
        have hmod : 10 * (n / 10) + n % 10 = n := Nat.div_add_mod n 10
        calc 10 * (a * 10 ^ (natDigitsAux fuel (n / 10)).length + n / 10) + n % 10
            = a * (10 ^ (natDigitsAux fuel (n / 10)).length * 10) +
                (10 * (n / 10) + n % 10) := by ring
          _ = a * 10 ^ ((natDigitsAux fuel (n / 10)).length + (0 + 1)) + n := by
                rw [hmod, Nat.zero_add, pow_succ]

/-- The decimal rendering round-trips. -/
theorem foldl_natDigits (n : Nat) :
    (natDigits n).foldl (fun acc c => 10 * acc + (c.toNat - 48)) 0 = n := by
  unfold natDigits
  by_cases h0 : n = 0
  · subst h0; decide
  · rw [if_neg h0, foldl_natDigitsAux n n le_rfl 0]
    simp

/-- The SKU allocator never reuses a string: `mkSku` is injective. -/
theorem mkSku_injective {m n : Nat} (h : mkSku m = mkSku n) : m = n := by
  have hdata : (mkSku m).data = (mkSku n).data := congrArg String.data h
  have hm : (mkSku m).data = "SKU-".data ++ natDigits m := rfl
  have hn' : (mkSku n).data = "SKU-".data ++ natDigits n := rfl
  rw [hm, hn'] at hdata
  have hdig : natDigits m = natDigits n := List.append_cancel_left hdata
  have hval := congrArg (List.foldl (fun acc c => 10 * acc + (c.toNat - 48)) 0) hdig
  rwa [foldl_natDigits, foldl_natDigits] at hval

/-- SKUs are never the empty string. -/
theorem mkSku_ne_empty (n : Nat) : mkSku n ≠ "" := by
  intro h
  have hdata : (mkSku n).data = ("" : String).data := congrArg String.data h
  rw [show (mkSku n).data = 'S' :: ('K' :: ('U' :: ('-' :: natDigits n))) from rfl] at hdata
  exact List.noConfusion hdata

/-- Pure mirror of the inner option loop: the variant records it
constructs, with `vid`/`skuIdx` the id and SKU counters at entry. -/
def expandOptions (productId : Nat) (color : String) (images : List String)
    (slugBase : String) : Nat → Nat → List VariantOption → List UnifiedVariant
  | _, _, [] => []
  | vid, skuIdx, opt :: rest =>
    if jsTrim opt.versionName == "" then
      expandOptions productId color images slugBase vid skuIdx rest
    else
      newUnifiedVariant vid skuIdx productId color images slugBase opt ::
        expandOptions productId color images slugBase (vid + 1) (skuIdx + 1) rest

/-- Pure mirror of the outer group loop. -/
def expandGroups (productId : Nat) (slugBase : String) :
    Nat → Nat → List VariantGroup → List UnifiedVariant
  | _, _, [] => []
  | vid, skuIdx, g :: rest =>
    if jsTrim g.color == "" then expandGroups productId slugBase vid skuIdx rest
    else if g.options.isEmpty then expandGroups productId slugBase vid skuIdx rest
    else
      expandOptions productId g.color g.images slugBase vid skuIdx g.options ++
        expandGroups productId slugBase
          (vid + (expandOptions productId g.color g.images slugBase vid skuIdx g.options).length)
          (skuIdx + (expandOptions productId g.color g.images slugBase vid skuIdx g.options).length)
          rest

/-- The valid (group, option) pairs of a variant payload, in input order
(group order, then option order): groups with a non-blank color and a
non-empty options list, then options with a non-blank versionName.  This
is the spec's description of which submitted entries become records. -/
def validPairs (groups : List VariantGroup) : List (VariantGroup × VariantOption) :=
  (groups.filter (fun g => !(jsTrim g.color == "") && !g.options.isEmpty)).flatMap
    (fun g => (g.options.filter (fun o => !(jsTrim o.versionName == ""))).map (fun o => (g, o)))

/-- One record per valid pair, in order, with consecutive document ids and
SKU counter positions — the spec's description of the expansion output. -/
def recordsOfPairs (productId : Nat) (slugBase : String) :
    Nat → Nat → List (VariantGroup × VariantOption) → List UnifiedVariant
  | _, _, [] => []
  | vid, skuIdx, p :: rest =>
    newUnifiedVariant vid skuIdx productId p.1.color p.1.images slugBase p.2 ::
      recordsOfPairs productId slugBase (vid + 1) (skuIdx + 1) rest

/-- `recordsOfPairs` yields one record per pair. -/
theorem length_recordsOfPairs (productId : Nat) (slugBase : String) :
    ∀ (ps : List (VariantGroup × VariantOption)) (vid skuIdx : Nat),
      (recordsOfPairs productId slugBase vid skuIdx ps).length = ps.length := by
  intro ps
  induction ps with
  | nil => intro vid skuIdx; rfl
  | cons p rest ih =>
      intro vid skuIdx
      rw [recordsOfPairs, List.length_cons, List.length_cons, ih]

/-- `recordsOfPairs` over an append splits with shifted counters. -/
theorem recordsOfPairs_append (productId : Nat) (slugBase : String) :
    ∀ (l₁ l₂ : List (VariantGroup × VariantOption)) (vid skuIdx : Nat),
      recordsOfPairs productId slugBase vid skuIdx (l₁ ++ l₂) =
        recordsOfPairs productId slugBase vid skuIdx l₁ ++
          recordsOfPairs productId slugBase (vid + l₁.length) (skuIdx + l₁.length) l₂ := by
  intro l₁
  induction l₁ with
  | nil => intro l₂ vid skuIdx; simp [recordsOfPairs]
  | cons p rest ih =>
      intro l₂ vid skuIdx
      rw [List.cons_append, recordsOfPairs, recordsOfPairs, ih]
      simp [Nat.add_assoc, Nat.add_comm 1 rest.length]

/-- The option expansion is the per-pair record list of its kept options. -/
theorem expandOptions_eq_recordsOfPairs (productId : Nat) (g : VariantGroup)
    (slugBase : String) :
    ∀ (opts : List VariantOption) (vid skuIdx : Nat),
      expandOptions productId g.color g.images slugBase vid skuIdx opts =
        recordsOfPairs productId slugBase vid skuIdx
          ((opts.filter (fun o => !(jsTrim o.versionName == ""))).map (fun o => (g, o))) := by
  intro opts
  induction opts with
  | nil => intro vid skuIdx; rfl
  | cons opt rest ih =>
      intro vid skuIdx
      by_cases hskip : (jsTrim opt.versionName == "") = true
      · rw [expandOptions, if_pos hskip, List.filter_cons,
          if_neg (by rw [hskip]; exact fun hcon => Bool.noConfusion hcon), ih]
      · rw [expandOptions, if_neg hskip, List.filter_cons,
          if_pos (by rw [Bool.eq_false_iff.mpr hskip]; rfl), List.map_cons, recordsOfPairs, ih]

/-- The group expansion produces exactly one record per valid pair, in
input order, with consecutive ids and SKU positions. -/
theorem expandGroups_eq_recordsOfPairs (productId : Nat) (slugBase : String) :
    ∀ (groups : List VariantGroup) (vid skuIdx : Nat),
      expandGroups productId slugBase vid skuIdx groups =
        recordsOfPairs productId slugBase vid skuIdx (validPairs groups) := by
  intro groups
  induction groups with
  | nil => intro vid skuIdx; rfl
  | cons g rest ih =>
      intro vid skuIdx
      by_cases hc : (jsTrim g.color == "") = true
      · rw [expandGroups, if_pos hc]
        rw [show validPairs (g :: rest) = validPairs rest from by
          unfold validPairs
          rw [List.filter_cons, if_neg (by rw [hc]; exact fun hcon => Bool.noConfusion hcon)]]
        exact ih vid skuIdx
      · by_cases he : g.options.isEmpty = true
        · rw [expandGroups, if_neg hc, if_pos he]
          rw [show validPairs (g :: rest) = validPairs rest from by
            unfold validPairs
            rw [List.filter_cons, if_neg (by
              rw [Bool.eq_false_iff.mpr hc, he]
              exact fun hcon => Bool.noConfusion hcon)]]
          exact ih vid skuIdx
        · rw [expandGroups, if_neg hc, if_neg he]
          have hvp : validPairs (g :: rest) =
              ((g.options.filter (fun o => !(jsTrim o.versionName == ""))).map (fun o => (g, o)))
                ++ validPairs rest := by
            unfold validPairs
            rw [List.filter_cons, if_pos (by
              rw [Bool.eq_false_iff.mpr hc, Bool.eq_false_iff.mpr he]
              rfl)]
            rw [List.flatMap_cons]
          have hlen : (expandOptions productId g.color g.images slugBase vid skuIdx g.options).length
              = ((g.options.filter (fun o => !(jsTrim o.versionName == ""))).map
                  (fun o => (g, o))).length := by
            rw [expandOptions_eq_recordsOfPairs productId g slugBase g.options vid skuIdx,
              length_recordsOfPairs]
          rw [hvp, recordsOfPairs_append, ← expandOptions_eq_recordsOfPairs, hlen, ih]

/-- What a successful run of the inner option loop did to the store: it
appended exactly the mirrored expansion records, advanced both counters by
their number, touched nothing else, and returned their ids in order. -/
theorem insertOptionsLoop_ok {productId : Nat} {color : String} {images : List String}
    {slugBase : String} :
    ∀ (opts : List VariantOption) (st : DbState) {st' : DbState} {ids : List Nat},
      insertOptionsLoop productId color images slugBase st opts = Except.ok (st', ids) →
      st'.variantDocs = st.variantDocs ++
          expandOptions productId color images slugBase st.nextVariantId st.skuCounter opts ∧
      st'.nextVariantId = st.nextVariantId +
          (expandOptions productId color images slugBase st.nextVariantId st.skuCounter opts).length ∧
      st'.skuCounter = st.skuCounter +
          (expandOptions productId color images slugBase st.nextVariantId st.skuCounter opts).length ∧
      st'.products = st.products ∧
      st'.productTypes = st.productTypes ∧
      st'.nextProductId = st.nextProductId ∧
      ids = (expandOptions productId color images slugBase st.nextVariantId st.skuCounter opts).map
          (fun r => r.id) := by
  intro opts
  induction opts with
  | nil =>
      intro st st' ids h
      rw [insertOptionsLoop] at h
      have hp := Except.ok.inj h
      have hst : st = st' := congrArg Prod.fst hp
      have hids : ([] : List Nat) = ids := congrArg Prod.snd hp
      subst hst
      rw [← hids]
      simp [expandOptions]
  | cons opt rest ih =>
      intro st st' ids h
      rw [insertOptionsLoop] at h
      by_cases hskip : (jsTrim opt.versionName == "") = true
      · rw [if_pos hskip] at h
        have := ih st h
        rw [expandOptions, if_pos hskip]
        exact this
      · rw [if_neg hskip] at h
        dsimp only at h
        rw [expandOptions, if_neg hskip]
        cases hins : insertVariant
            { st with skuCounter := st.skuCounter + 1, nextVariantId := st.nextVariantId + 1 }
            (newUnifiedVariant st.nextVariantId st.skuCounter productId color images slugBase opt) with
        | error e => rw [hins] at h; exact Except.noConfusion h
        | ok st1 =>
            rw [hins] at h
            dsimp only at h
            cases hrest : insertOptionsLoop productId color images slugBase st1 rest with
            | error e => rw [hrest] at h; exact Except.noConfusion h
            | ok p =>
                obtain ⟨st2, ids2⟩ := p
                rw [hrest] at h
                dsimp only at h
                have hp := Except.ok.inj h
                have hst2 : st2 = st' := congrArg Prod.fst hp
                have hids : (newUnifiedVariant st.nextVariantId st.skuCounter productId color
                    images slugBase opt).id :: ids2 = ids := congrArg Prod.snd hp
                obtain ⟨hchk, hdup, hst1⟩ := insertVariant_ok hins
                subst hst1
                have hihres := ih _ hrest
                simp only [List.append_assoc, List.singleton_append] at hihres
                obtain ⟨hd, hn, hs, hpr, hpt, hnp, hi⟩ := hihres
                subst hst2
                rw [← hids]
                refine ⟨by rw [hd], ?_, ?_, hpr, hpt, hnp, by rw [hi, List.map_cons]⟩
                · rw [hn]
                  simp only [List.length_cons]
                  omega
                · rw [hs]
                  simp only [List.length_cons]
                  omega

/-- What a successful run of the outer group loop did to the store. -/
theorem insertGroupsLoop_ok {productId : Nat} {slugBase : String} :
    ∀ (groups : List VariantGroup) (st : DbState) {st' : DbState} {ids : List Nat},
      insertGroupsLoop productId slugBase st groups = Except.ok (st', ids) →
      st'.variantDocs = st.variantDocs ++
          expandGroups productId slugBase st.nextVariantId st.skuCounter groups ∧
      st'.nextVariantId = st.nextVariantId +
          (expandGroups productId slugBase st.nextVariantId st.skuCounter groups).length ∧
      st'.skuCounter = st.skuCounter +
          (expandGroups productId slugBase st.nextVariantId st.skuCounter groups).length ∧
      st'.products = st.products ∧
      st'.productTypes = st.productTypes ∧
      st'.nextProductId = st.nextProductId ∧
      ids = (expandGroups productId slugBase st.nextVariantId st.skuCounter groups).map
          (fun r => r.id) := by
  intro groups
  induction groups with
  | nil =>
      intro st st' ids h
      rw [insertGroupsLoop] at h
      have hp := Except.ok.inj h
      have hst : st = st' := congrArg Prod.fst hp
      have hids : ([] : List Nat) = ids := congrArg Prod.snd hp
      subst hst
      rw [← hids]
      simp [expandGroups]
  | cons g rest ih =>
      intro st st' ids h
      rw [insertGroupsLoop] at h
      by_cases hc : (jsTrim g.color == "") = true
      · rw [if_pos hc] at h
        rw [expandGroups, if_pos hc]
        exact ih st h
      · rw [if_neg hc] at h
        by_cases he : g.options.isEmpty = true
        · rw [if_pos he] at h
          rw [expandGroups, if_neg hc, if_pos he]
          exact ih st h
        · rw [if_neg he] at h
          rw [expandGroups, if_neg hc, if_neg he]
          cases hopts : insertOptionsLoop productId g.color g.images slugBase st g.options with
          | error e => rw [hopts] at h; exact Except.noConfusion h
          | ok p1 =>
              obtain ⟨st1, ids1⟩ := p1
              rw [hopts] at h
              dsimp only at h
              cases hrest : insertGroupsLoop productId slugBase st1 rest with
              | error e => rw [hrest] at h; exact Except.noConfusion h
              | ok p2 =>
                  obtain ⟨st2, ids2⟩ := p2
                  rw [hrest] at h
                  dsimp only at h
                  have hp := Except.ok.inj h
                  have hst2 : st2 = st' := congrArg Prod.fst hp
                  have hids : ids1 ++ ids2 = ids := congrArg Prod.snd hp
                  obtain ⟨hd1, hn1, hs1, hpr1, hpt1, hnp1, hi1⟩ := insertOptionsLoop_ok g.options st hopts
                  obtain ⟨hd2, hn2, hs2, hpr2, hpt2, hnp2, hi2⟩ := ih st1 hrest
                  subst hst2
                  rw [← hids]
                  rw [hn1, hs1] at hd2 hn2 hs2 hi2
                  refine ⟨?_, ?_, ?_, ?_, ?_, ?_, ?_⟩
                  · rw [hd2, hd1, List.append_assoc]
                  · rw [hn2, List.length_append]
                    omega
                  · rw [hs2, List.length_append]
                    omega
                  · rw [hpr2, hpr1]
                  · rw [hpt2, hpt1]
                  · rw [hnp2, hnp1]
                  · rw [hi2, hi1, List.map_append]

/-- What a successful save of an existing product did to the store. -/
theorem updateProductInState_ok {st st' : DbState} {p : UnifiedProduct}
    (h : updateProductInState st p = Except.ok st') :
    st'.variantDocs = st.variantDocs ∧ st'.productTypes = st.productTypes ∧
    st'.nextVariantId = st.nextVariantId ∧ st'.skuCounter = st.skuCounter ∧
    st'.nextProductId = st.nextProductId ∧
    st'.products = st.products.map
      (fun q => if q.id == (applyProductPreSave p).id then applyProductPreSave p else q) := by
  unfold updateProductInState at h
  dsimp only at h
  cases hc : productSaveChecks st (applyProductPreSave p) with
  | error e => rw [hc] at h; exact Except.noConfusion h
  | ok u =>
      cases u
      rw [hc] at h
      dsimp only at h
      have hst := Except.ok.inj h
      rw [← hst]
      exact ⟨rfl, rfl, rfl, rfl, rfl, rfl⟩

/-- Each scalar update step keeps the id and the variants list. -/
theorem updName_id_variants (req : UpdateRequest) (p : UnifiedProduct) :
    (updName req p).id = p.id ∧ (updName req p).variants = p.variants := by
  unfold updName; constructor <;> (repeat' split) <;> rfl

theorem updDescription_id_variants (req : UpdateRequest) (p : UnifiedProduct) :
    (updDescription req p).id = p.id ∧ (updDescription req p).variants = p.variants := by
  unfold updDescription; constructor <;> (repeat' split) <;> rfl

theorem updCondition_id_variants (req : UpdateRequest) (p : UnifiedProduct) :
    (updCondition req p).id = p.id ∧ (updCondition req p).variants = p.variants := by
  unfold updCondition; constructor <;> (repeat' split) <;> rfl

theorem updStatus_id_variants (req : UpdateRequest) (p : UnifiedProduct) :
    (updStatus req p).id = p.id ∧ (updStatus req p).variants = p.variants := by
  unfold updStatus; constructor <;> (repeat' split) <;> rfl

theorem updBadge_id_variants (req : UpdateRequest) (p : UnifiedProduct) :
    (updBadge req p).id = p.id ∧ (updBadge req p).variants = p.variants := by
  unfold updBadge; constructor <;> (repeat' split) <;> rfl

theorem updImages_id_variants (req : UpdateRequest) (p : UnifiedProduct) :
    (updImages req p).id = p.id ∧ (updImages req p).variants = p.variants := by
  unfold updImages; constructor <;> (repeat' split) <;> rfl

theorem updVideoUrl_id_variants (req : UpdateRequest) (p : UnifiedProduct) :
    (updVideoUrl req p).id = p.id ∧ (updVideoUrl req p).variants = p.variants := by
  unfold updVideoUrl; constructor <;> (repeat' split) <;> rfl

/-- Scalar field updates never touch the id or the variants list. -/
theorem applyScalarUpdates_id_variants (p : UnifiedProduct) (req : UpdateRequest) :
    (applyScalarUpdates p req).id = p.id ∧ (applyScalarUpdates p req).variants = p.variants := by
  unfold applyScalarUpdates
  obtain ⟨h1, h1'⟩ := updName_id_variants req p
  obtain ⟨h2, h2'⟩ := updDescription_id_variants req (updName req p)
  obtain ⟨h3, h3'⟩ := updCondition_id_variants req (updDescription req (updName req p))
  obtain ⟨h4, h4'⟩ := updStatus_id_variants req
    (updCondition req (updDescription req (updName req p)))
  obtain ⟨h5, h5'⟩ := updBadge_id_variants req
    (updStatus req (updCondition req (updDescription req (updName req p))))
  obtain ⟨h6, h6'⟩ := updImages_id_variants req
    (updBadge req (updStatus req (updCondition req (updDescription req (updName req p)))))
  obtain ⟨h7, h7'⟩ := updVideoUrl_id_variants req
    (updImages req (updBadge req (updStatus req
      (updCondition req (updDescription req (updName req p))))))
  rw [h7, h6, h5, h4, h3, h2, h1]
  rw [h7', h6', h5', h4', h3', h2', h1']
  exact ⟨rfl, rfl⟩

/-- The product pre-save hook never touches the id or the variants list. -/
theorem applyProductPreSave_id_variants (p : UnifiedProduct) :
    (applyProductPreSave p).id = p.id ∧ (applyProductPreSave p).variants = p.variants := by
  unfold applyProductPreSave
  dsimp only
  constructor <;> (repeat' split) <;> rfl

/-- A successful `updateProduct` means the transaction body succeeded on
the same store. -/
theorem updateProduct_ok_tx {st st' : DbState} {pid : Nat} {req : UpdateRequest}
    (hok : updateProduct st pid req = (Except.ok (), st')) :
    updateProductTx st pid req = Except.ok st' := by
  unfold updateProduct at hok
  cases ht : updateProductTx st pid req with
  | error e =>
      rw [ht] at hok
      exact Except.noConfusion (congrArg Prod.fst hok)
  | ok st2 =>
      rw [ht] at hok
      have : st2 = st' := congrArg Prod.snd hok
      rw [← this]

/-- The slug-update step never touches the id or the variants list. -/
theorem applySlugUpdate_id_variants (p : UnifiedProduct) (req : UpdateRequest) :
    (applySlugUpdate p req).id = p.id ∧ (applySlugUpdate p req).variants = p.variants := by
  unfold applySlugUpdate
  constructor <;> split <;> rfl

/-- The specification-update step never touches the id or the variants
list. -/
theorem applySpecUpdate_id_variants (p : UnifiedProduct) (req : UpdateRequest) :
    (applySpecUpdate p req).id = p.id ∧ (applySpecUpdate p req).variants = p.variants := by
  unfold applySpecUpdate
  constructor <;> split <;> rfl

/-- C10: an update whose variant payload is absent or empty leaves every
owned variant document and the product's variants reference list exactly
as they were (the delete-and-regenerate branch runs only for a non-empty
group list). -/
theorem c10_update_empty_groups_preserves_variants (st : DbState) (pid : Nat)
    (req : UpdateRequest) (st' : DbState)
    (hempty : req.variantGroups = [])
    (hok : updateProduct st pid req = (Except.ok (), st')) :
    st'.variantDocs = st.variantDocs ∧
    ∃ p0, st.products.find? (fun q => q.id == pid) = some p0 ∧
      ∃ p' ∈ st'.products, p'.id = pid ∧ p'.variants = p0.variants := by
  have htx := updateProduct_ok_tx hok
  unfold updateProductTx at htx
  cases hfind : st.products.find? (fun p => p.id == pid) with
  | none => rw [hfind] at htx; exact Except.noConfusion htx
  | some product0 =>
      rw [hfind] at htx
      dsimp only at htx
      split at htx
      · exact Except.noConfusion htx
      · split at htx
        · exact Except.noConfusion htx
        · split at htx
          · exact Except.noConfusion htx
          · rename_i st1 hsave
            rw [hempty] at htx
            simp only [List.isEmpty_nil, if_true] at htx
            have hst1 : st1 = st' := Except.ok.inj htx
            subst hst1
            obtain ⟨hdocs, _, _, _, _, hprods⟩ := updateProductInState_ok hsave
            have hPid : (applySpecUpdate (applySlugUpdate (applyScalarUpdates product0 req) req)
                req).id = product0.id := by
              rw [(applySpecUpdate_id_variants _ _).1, (applySlugUpdate_id_variants _ _).1,
                (applyScalarUpdates_id_variants _ _).1]
            have hPvar : (applySpecUpdate (applySlugUpdate (applyScalarUpdates product0 req) req)
                req).variants = product0.variants := by
              rw [(applySpecUpdate_id_variants _ _).2, (applySlugUpdate_id_variants _ _).2,
                (applyScalarUpdates_id_variants _ _).2]
            have hpreid : (applyProductPreSave (applySpecUpdate (applySlugUpdate
                (applyScalarUpdates product0 req) req) req)).id = product0.id := by
              rw [(applyProductPreSave_id_variants _).1, hPid]
            have hprevar : (applyProductPreSave (applySpecUpdate (applySlugUpdate
                (applyScalarUpdates product0 req) req) req)).variants = product0.variants := by
              rw [(applyProductPreSave_id_variants _).2, hPvar]
            have hp0id : product0.id = pid := by
              have := List.find?_some hfind
              exact (beq_iff_eq ..).mp this
            refine ⟨hdocs, product0, rfl,
              applyProductPreSave (applySpecUpdate (applySlugUpdate
                (applyScalarUpdates product0 req) req) req), ?_, ?_, hprevar⟩
            · rw [hprods]
              refine List.mem_map.mpr ⟨product0, List.mem_of_find?_eq_some hfind, ?_⟩
              rw [if_pos (by rw [hpreid]; exact (beq_iff_eq ..).mpr rfl)]
            · rw [hpreid, hp0id]

/-- Every SKU already in the store was drawn strictly below the current
counter position, so future draws are fresh. -/
def SkuFresh (st : DbState) : Prop :=
  ∀ w ∈ st.variantDocs, ∀ k, st.skuCounter ≤ k → w.sku ≠ mkSku k

/-- Expansion records carry the target product id and SKUs drawn at or
after the entry counter position. -/
theorem recordsOfPairs_productId_sku (productId : Nat) (slugBase : String) :
    ∀ (ps : List (VariantGroup × VariantOption)) (vid skuIdx : Nat),
      ∀ r ∈ recordsOfPairs productId slugBase vid skuIdx ps,
        r.productId = productId ∧ ∃ k, skuIdx ≤ k ∧ r.sku = mkSku k := by
  intro ps
  induction ps with
  | nil => intro vid skuIdx r hr; exact absurd hr (List.not_mem_nil r)
  | cons p rest ih =>
      intro vid skuIdx r hr
      rw [recordsOfPairs] at hr
      rcases List.mem_cons.mp hr with hr | hr
      · subst hr
        exact ⟨rfl, skuIdx, le_rfl, rfl⟩
      · obtain ⟨hpid, k, hk, hsku⟩ := ih (vid + 1) (skuIdx + 1) r hr
        exact ⟨hpid, k, by omega, hsku⟩

/-- C2: when an update supplying a non-empty variant payload succeeds,
the store's variants owned by the product are wholesale-replaced: the
final store holds exactly the non-owned old documents plus the records
expanded from the supplied groups (one per valid pair, fresh consecutive
SKUs); no surviving document carries an old owned SKU; the new SKUs
collide with nothing previously stored; and the product's variants
reference list equals exactly the new record ids — never a union of old
and new. -/
theorem c2_update_replaces_variants (st : DbState) (pid : Nat) (req : UpdateRequest)
    (st' : DbState)
    (hfresh : SkuFresh st)
    (hdistinct : List.Pairwise (fun a b => a.sku ≠ b.sku) st.variantDocs)
    (hne : req.variantGroups ≠ [])
    (hok : updateProduct st pid req = (Except.ok (), st')) :
    ∃ base recs,
      recs = recordsOfPairs pid base st.nextVariantId st.skuCounter
        (validPairs req.variantGroups) ∧
      st'.variantDocs = (st.variantDocs.filter (fun w => !(w.productId == pid))) ++ recs ∧
      (∀ w ∈ st.variantDocs, w.productId = pid → ∀ u ∈ st'.variantDocs, u.sku ≠ w.sku) ∧
      (∀ r ∈ recs, ∀ w ∈ st.variantDocs, r.sku ≠ w.sku) ∧
      ∃ p' ∈ st'.products, p'.id = pid ∧ p'.variants = recs.map (fun r => r.id) := by
  have htx := updateProduct_ok_tx hok
  unfold updateProductTx at htx
  cases hfind : st.products.find? (fun p => p.id == pid) with
  | none => rw [hfind] at htx; exact Except.noConfusion htx
  | some product0 =>
      rw [hfind] at htx
      dsimp only at htx
      split at htx
      · exact Except.noConfusion htx
      · split at htx
        · exact Except.noConfusion htx
        · split at htx
          · exact Except.noConfusion htx
          · rename_i st1 hsave
            rw [if_neg (fun hcon => hne (List.isEmpty_iff.mp hcon))] at htx
            split at htx
            · exact Except.noConfusion htx
            · rename_i st3 ids hloop
              obtain ⟨h1docs, h1pt, h1nvi, h1sku, h1npi, h1prods⟩ := updateProductInState_ok hsave
              obtain ⟨h3docs, h3nvi, h3sku, h3prods, h3pt, h3npi, h3ids⟩ :=
                insertGroupsLoop_ok req.variantGroups _ hloop
              obtain ⟨hfdocs, hfpt, hfnvi, hfsku, hfnpi, hfprods⟩ := updateProductInState_ok htx
              simp only [h1docs, h1nvi, h1sku] at h3docs h3nvi h3sku h3ids
              set P := applySpecUpdate (applySlugUpdate (applyScalarUpdates product0 req) req) req
                with hPdef
              set base := (if (!P.baseSlug == "") = true then P.baseSlug else P.slug) with hbase
              set EG := expandGroups pid base st.nextVariantId st.skuCounter req.variantGroups
                with hEG
              obtain ⟨hfdocs2, hfpt2, hfnvi2, hfsku2, hfnpi2, hfprods2⟩ :=
                updateProductInState_ok htx
              have hrec : EG = recordsOfPairs pid base st.nextVariantId st.skuCounter
                  (validPairs req.variantGroups) := by
                rw [hEG]
                exact expandGroups_eq_recordsOfPairs pid base req.variantGroups
                  st.nextVariantId st.skuCounter
              have hPid : P.id = product0.id := by
                rw [hPdef, (applySpecUpdate_id_variants _ _).1, (applySlugUpdate_id_variants _ _).1,
                  (applyScalarUpdates_id_variants _ _).1]
              have hp0id : product0.id = pid := by
                have hfs := List.find?_some hfind
                exact (beq_iff_eq ..).mp hfs
              have hEGsku : ∀ r ∈ EG, ∃ k, st.skuCounter ≤ k ∧ r.sku = mkSku k := by
                intro r hr
                rw [hrec] at hr
                exact (recordsOfPairs_productId_sku pid base (validPairs req.variantGroups)
                  st.nextVariantId st.skuCounter r hr).2
              refine ⟨base, EG, hrec, ?_, ?_, ?_, ?_⟩
              · rw [hfdocs2, h3docs]
              · intro w hw hwpid u hu
                rw [hfdocs2, h3docs] at hu
                rcases List.mem_append.mp hu with hu | hu
                · obtain ⟨humem, hupid⟩ := List.mem_filter.mp hu
                  have hune : u ≠ w := by
                    intro hcon
                    rw [hcon] at hupid
                    rw [hwpid] at hupid
                    simp at hupid
                  exact hdistinct.forall (fun _ _ hx => Ne.symm hx) humem hw hune
                · obtain ⟨k, hk, hsku⟩ := hEGsku u hu
                  rw [hsku]
                  intro hcon
                  exact hfresh w hw k hk hcon.symm
              · intro r hr w hw
                obtain ⟨k, hk, hsku⟩ := hEGsku r hr
                rw [hsku]
                intro hcon
                exact hfresh w hw k hk hcon.symm
              · refine ⟨applyProductPreSave { P with variants := ids }, ?_, ?_, ?_⟩
                · rw [hfprods2, h3prods, h1prods]
                  refine List.mem_map.mpr ⟨applyProductPreSave P,
                    List.mem_map.mpr ⟨product0, List.mem_of_find?_eq_some hfind, ?_⟩, ?_⟩
                  · rw [if_pos (by
                      rw [(applyProductPreSave_id_variants P).1, hPid]
                      exact (beq_iff_eq ..).mpr rfl)]
                  · rw [if_pos (by
                      rw [(applyProductPreSave_id_variants P).1,
                        (applyProductPreSave_id_variants _).1]
                      exact (beq_iff_eq ..).mpr rfl)]
                · rw [(applyProductPreSave_id_variants _).1]
                  exact hPid.trans hp0id
                · rw [(applyProductPreSave_id_variants _).2, h3ids, hrec]

/-- The stored product used by the C2/C5 witnesses. -/
def pC2 : UnifiedProduct :=
  { id := 1, name := "MacBook", model := "MBA13", slug := "mba13", baseSlug := "mba13",
    description := "", productTypeId := 7, specifications := [], condition := "NEW",
    brand := "Apple", status := "AVAILABLE", installmentBadge := "NONE",
    featuredImages := [], videoUrl := "", variants := [], createdBy := 1 }

/-- A store holding `pC2` and no variants. -/
def stC2 : DbState :=
  { productTypes := [t7], products := [pC2], variantDocs := [],
    nextProductId := 2, nextVariantId := 0, skuCounter := 0 }

/-- An update request replacing the variants of `pC2` with one group of
one option. -/
def reqC2 : UpdateRequest :=
  { name := none, description := none, condition := none, status := none,
    installmentBadge := none, featuredImages := none, videoUrl := none,
    model := none, slug := none, specifications := none,
    variantGroups :=
      [{ color := "Black", images := [],
         options := [{ versionName := "256GB", originalPrice := some 100,
                       price := some 90, stock := some 5 }] }] }

/-- Witness for C2 at the concrete store and request. -/
theorem c2_update_replaces_variants_witness :
    reqC2.variantGroups ≠ [] ∧
    ∃ base recs,
      recs = recordsOfPairs 1 base stC2.nextVariantId stC2.skuCounter
        (validPairs reqC2.variantGroups) ∧
      (updateProduct stC2 1 reqC2).2.variantDocs =
        (stC2.variantDocs.filter (fun w => !(w.productId == 1))) ++ recs ∧
      (∀ w ∈ stC2.variantDocs, w.productId = 1 →
         ∀ u ∈ (updateProduct stC2 1 reqC2).2.variantDocs, u.sku ≠ w.sku) ∧
      (∀ r ∈ recs, ∀ w ∈ stC2.variantDocs, r.sku ≠ w.sku) ∧
      ∃ p' ∈ (updateProduct stC2 1 reqC2).2.products, p'.id = 1 ∧
        p'.variants = recs.map (fun r => r.id) := by
  refine ⟨by decide, ?_⟩
  exact c2_update_replaces_variants stC2 1 reqC2 _
    (fun w hw => absurd hw (List.not_mem_nil w))
    List.Pairwise.nil
    (by decide)
    rfl

/-- The numeric sanity conditions the variant save checks require of a
payload (prices and stock non-negative, price at most original price). -/
def PayloadOK (groups : List VariantGroup) : Prop :=
  ∀ g ∈ groups, ∀ o ∈ g.options,
    0 ≤ o.originalPrice.getD 0 ∧ 0 ≤ o.price.getD 0 ∧
    o.price.getD 0 ≤ o.originalPrice.getD 0 ∧ 0 ≤ o.stock.getD 0

instance (groups : List VariantGroup) : Decidable (PayloadOK groups) := by
  unfold PayloadOK; infer_instance

/-- Under a sane payload and a fresh SKU counter, the inner option loop
never throws, and the counter stays fresh for the rest of the run. -/
theorem insertOptionsLoop_success {productId : Nat} {color : String} {images : List String}
    {slugBase : String} (hcolor : (jsTrim color == "") = false) :
    ∀ (opts : List VariantOption) (st : DbState),
      (∀ o ∈ opts, 0 ≤ o.originalPrice.getD 0 ∧ 0 ≤ o.price.getD 0 ∧
         o.price.getD 0 ≤ o.originalPrice.getD 0 ∧ 0 ≤ o.stock.getD 0) →
      SkuFresh st →
      ∃ st' ids, insertOptionsLoop productId color images slugBase st opts =
          Except.ok (st', ids) ∧ SkuFresh st' := by
  intro opts
  induction opts with
  | nil => intro st _ hfresh; exact ⟨st, [], rfl, hfresh⟩
  | cons opt rest ih =>
      intro st hnum hfresh
      by_cases hskip : (jsTrim opt.versionName == "") = true
      · obtain ⟨st', ids, hloop, hfresh'⟩ :=
          ih st (fun o ho => hnum o (List.mem_cons_of_mem opt ho)) hfresh
        exact ⟨st', ids, by rw [insertOptionsLoop, if_pos hskip]; exact hloop, hfresh'⟩
      · obtain ⟨hop, hp, hple, hstk⟩ := hnum opt (List.mem_cons_self opt rest)
        have hchk : saveVariantChecks
            (newUnifiedVariant st.nextVariantId st.skuCounter productId color images slugBase opt)
              = Except.ok () := by
          unfold saveVariantChecks newUnifiedVariant
          rw [if_neg (by simp only; omega)]
          rw [if_neg (by
            simp only [Bool.or_eq_true, decide_eq_true_eq]
            omega)]
          rw [if_neg (by
            simp only [Bool.or_eq_true, beq_iff_eq]
            intro hcon
            rcases hcon with (hcon | hcon) | hcon
            · exact absurd hcon ((beq_iff_eq ..).not.mp (by rw [hcolor]; exact Bool.false_ne_true))
            · exact absurd hcon ((beq_iff_eq ..).not.mp (by
                rw [Bool.eq_false_iff.mpr hskip]; exact Bool.false_ne_true))
            · exact mkSku_ne_empty st.skuCounter hcon)]
        have hdup : st.variantDocs.any (fun w =>
            w.sku == (newUnifiedVariant st.nextVariantId st.skuCounter productId color images
              slugBase opt).sku) = false := by
          rw [List.any_eq_false]
          intro w hw
          intro hcon
          exact hfresh w hw st.skuCounter le_rfl ((beq_iff_eq ..).mp hcon)
        have hins : insertVariant
            { st with skuCounter := st.skuCounter + 1, nextVariantId := st.nextVariantId + 1 }
            (newUnifiedVariant st.nextVariantId st.skuCounter productId color images slugBase opt)
            = Except.ok { st with
                skuCounter := st.skuCounter + 1, nextVariantId := st.nextVariantId + 1,
                variantDocs := st.variantDocs ++
                  [newUnifiedVariant st.nextVariantId st.skuCounter productId color images
                    slugBase opt] } := by
          unfold insertVariant
          rw [hchk]
          dsimp only
          rw [if_neg (by rw [hdup]; exact Bool.false_ne_true)]
        have hfresh1 : SkuFresh { st with
            skuCounter := st.skuCounter + 1, nextVariantId := st.nextVariantId + 1,
            variantDocs := st.variantDocs ++
              [newUnifiedVariant st.nextVariantId st.skuCounter productId color images
                slugBase opt] } := by
          intro w hw k hk
          rcases List.mem_append.mp hw with hw | hw
          · exact hfresh w hw k (by simp only at hk; omega)
          · rw [List.mem_singleton.mp hw]
            intro hcon
            have := mkSku_injective hcon
            simp only at hk
            omega
        obtain ⟨st', ids, hloop, hfresh'⟩ :=
          ih _ (fun o ho => hnum o (List.mem_cons_of_mem opt ho)) hfresh1
        refine ⟨st', (newUnifiedVariant st.nextVariantId st.skuCounter productId color images
            slugBase opt).id :: ids, ?_, hfresh'⟩
        rw [insertOptionsLoop, if_neg hskip]
        dsimp only
        rw [hins]
        dsimp only
        rw [hloop]

/-- Under a sane payload and a fresh SKU counter, the outer group loop
never throws: blank groups and options are skipped silently. -/
theorem insertGroupsLoop_success {productId : Nat} {slugBase : String} :
    ∀ (groups : List VariantGroup) (st : DbState),
      PayloadOK groups → SkuFresh st →
      ∃ st' ids, insertGroupsLoop productId slugBase st groups = Except.ok (st', ids) ∧
        SkuFresh st' := by
  intro groups
  induction groups with
  | nil => intro st _ hfresh; exact ⟨st, [], rfl, hfresh⟩
  | cons g rest ih =>
      intro st hok hfresh
      have hokrest : PayloadOK rest := fun g' hg' => hok g' (List.mem_cons_of_mem g hg')
      by_cases hc : (jsTrim g.color == "") = true
      · obtain ⟨st', ids, hloop, hfresh'⟩ := ih st hokrest hfresh
        exact ⟨st', ids, by rw [insertGroupsLoop, if_pos hc]; exact hloop, hfresh'⟩
      · by_cases he : g.options.isEmpty = true
        · obtain ⟨st', ids, hloop, hfresh'⟩ := ih st hokrest hfresh
          exact ⟨st', ids, by rw [insertGroupsLoop, if_neg hc, if_pos he]; exact hloop, hfresh'⟩
        · obtain ⟨st1, ids1, hloop1, hfresh1⟩ :=
            @insertOptionsLoop_success productId g.color g.images slugBase
              (Bool.eq_false_iff.mpr hc) g.options st
              (fun o ho => hok g (List.mem_cons_self g rest) o ho) hfresh
          obtain ⟨st2, ids2, hloop2, hfresh2⟩ := ih st1 hokrest hfresh1
          refine ⟨st2, ids1 ++ ids2, ?_, hfresh2⟩
          rw [insertGroupsLoop, if_neg hc, if_neg he, hloop1]
          dsimp only
          rw [hloop2]

/-- C5: for a numerically sane payload and a fresh SKU counter the
expansion step succeeds — groups with a blank color or no options, and
options with a blank versionName, are skipped without raising an error —
and it persists exactly one record per valid (group, option) pair, with
the flat output and its id list in input order (group order, then option
order). -/
theorem c5_variant_expansion (st : DbState) (groups : List VariantGroup)
    (productId : Nat) (slugBase : String)
    (hok : PayloadOK groups) (hfresh : SkuFresh st) :
    ∃ st' ids, insertGroupsLoop productId slugBase st groups = Except.ok (st', ids) ∧
      st'.variantDocs = st.variantDocs ++
        recordsOfPairs productId slugBase st.nextVariantId st.skuCounter (validPairs groups) ∧
      ids = (recordsOfPairs productId slugBase st.nextVariantId st.skuCounter
        (validPairs groups)).map (fun r => r.id) := by
  obtain ⟨st', ids, hloop, _⟩ := insertGroupsLoop_success groups st hok hfresh
  obtain ⟨hd, _, _, _, _, _, hi⟩ := insertGroupsLoop_ok groups st hloop
  refine ⟨st', ids, hloop, ?_, ?_⟩
  · rw [hd, expandGroups_eq_recordsOfPairs]
  · rw [hi, expandGroups_eq_recordsOfPairs]

/-- A payload exercising every skip rule: a blank color, an empty options
list, a blank versionName, and one valid pair. -/
def groupsC5 : List VariantGroup :=
  [{ color := "  ", images := [], options :=
       [{ versionName := "64GB", originalPrice := some 50, price := some 40, stock := some 1 }] },
   { color := "Blue", images := [], options := [] },
   { color := "Black", images := ["a.jpg", " "],
     options :=
       [{ versionName := " ", originalPrice := some 10, price := some 5, stock := some 1 },
        { versionName := "256GB", originalPrice := some 100, price := some 90, stock := some 5 }] }]

/-- Witness for C5: on `groupsC5` over the empty store the expansion
succeeds and `validPairs` keeps exactly the one valid pair. -/
theorem c5_variant_expansion_witness :
    (validPairs groupsC5).length = 1 ∧
    ∃ st' ids, insertGroupsLoop 1 "mba13" emptyDb groupsC5 = Except.ok (st', ids) ∧
      st'.variantDocs = emptyDb.variantDocs ++
        recordsOfPairs 1 "mba13" emptyDb.nextVariantId emptyDb.skuCounter
          (validPairs groupsC5) ∧
      ids = (recordsOfPairs 1 "mba13" emptyDb.nextVariantId emptyDb.skuCounter
        (validPairs groupsC5)).map (fun r => r.id) := by
  refine ⟨by decide, ?_⟩
  exact c5_variant_expansion emptyDb groupsC5 1 "mba13" (by decide)
    (fun w hw => absurd hw (List.not_mem_nil w))

/-- A variant document owned by `pC2`. -/
def vC10 : UnifiedVariant := { vGood with productId := 1 }

/-- A store where `pC2` owns `vC10`. -/
def stC10 : DbState :=
  { productTypes := [t7], products := [{ pC2 with variants := [0] }], variantDocs := [vC10],
    nextProductId := 2, nextVariantId := 1, skuCounter := 1 }

/-- An update request with no variant payload (a name change only). -/
def reqC10 : UpdateRequest :=
  { name := some "MacBook Air", description := none, condition := none, status := none,
    installmentBadge := none, featuredImages := none, videoUrl := none,
    model := none, slug := none, specifications := none, variantGroups := [] }

/-- Witness for C10 at the concrete store and request. -/
theorem c10_update_empty_groups_witness :
    reqC10.variantGroups = [] ∧
    ((updateProduct stC10 1 reqC10).2.variantDocs = stC10.variantDocs ∧
     ∃ p0, stC10.products.find? (fun q => q.id == 1) = some p0 ∧
       ∃ p' ∈ (updateProduct stC10 1 reqC10).2.products, p'.id = 1 ∧
         p'.variants = p0.variants) := by
  refine ⟨rfl, ?_⟩
  exact c10_update_empty_groups_preserves_variants stC10 1 reqC10 _ rfl rfl
